import Mathlib

/-!
Copy-on-write shared value (`lib/libfilezilla/shared.hpp`).

A shallow embedding of `fz::shared_optional<T, Init>` and proofs about it.

The class has one data member, `std::shared_ptr<T> data_`.  Nothing in the
public interface hands the `shared_ptr` out, so the only owners of a storage
cell are `shared_optional` instances of the same instantiation.  The embedding
therefore works on a `World`:

* `heap`  : the storage cells created by `std::make_shared<T>`, addressed by
  their position; a released cell is `none`;
* `data_` : the `data_` member of every live instance, addressed by an
  instance number; `none` is the empty (null) handle.

`std::shared_ptr` is the standard library's, so it is modelled by its
specification: `use_count()` is the number of `shared_ptr` objects that own the
cell, assignment releases the old cell (destroying it when the last owner
leaves) and `make_shared` yields a cell nobody else refers to.  Dereferencing a
null handle is undefined behaviour; the operations that do it return `none`.
The element type contributes `T()` (`dflt`), `operator==` (`eqT`) and
`operator<` (`ltT`), taken as parameters; copying a `T` is the identity and the
constructors of `T` are taken not to throw.  The template argument `Init` is
the first argument of every operation that depends on it.

The comparison operators are `const` member functions.  They are embedded
twice: as functions that read the world (`op_eq`, `op_lt`, ...), and in
state-passing form (`call_op_eq`, `call_op_lt`, ...), which also yields the
world after the call; the two are proved to agree.

The claims are stated for well-formed worlds (`WF`: no handle dangles);
`reachable_WF` shows that every world the public operations can produce is
well-formed.
-/

namespace fz

/-- The storage cells and the `data_` member of every live instance. -/
structure World (T : Type) where
  heap : List (Option T)
  data_ : List (Option Nat)

variable {T : Type}

/-- The `data_` member of instance `i`: the address it refers to, or `none`
for an empty handle (and for a number that is no instance). -/
def World.handle (w : World T) (i : Nat) : Option Nat :=
  (w.data_[i]?).join

/-- The content of the storage cell at address `p`, when it is live. -/
def World.cell (w : World T) (p : Nat) : Option T :=
  (w.heap[p]?).join

/-- `std::shared_ptr::use_count()` on `data_` of instance `i`: the number of
instances that own the same cell, or 0 for an empty handle. -/
def use_count (w : World T) (i : Nat) : Nat :=
  match w.handle i with
  | none => 0
  | some p => w.data_.count (some p)

/-- `std::make_shared<T>(v)`: a new cell holding `v`, at a new address. -/
def make_shared (w : World T) (v : T) : World T × Nat :=
  (⟨w.heap ++ [some v], w.data_⟩, w.heap.length)

/-- Assignment to `data_` of instance `i` (`data_ = h`, `data_.reset()` for
`h = none`): the handle is replaced and the cell it referred to is destroyed
when no instance refers to it any more. -/
def assign (w : World T) (i : Nat) (h : Option Nat) : World T :=
  let d := w.data_.set i h
  match w.handle i with
  | none => ⟨w.heap, d⟩
  | some p => if d.count (some p) = 0 then ⟨w.heap.set p none, d⟩ else ⟨w.heap, d⟩

/-- The statement `data_ = std::make_shared<T>(v);` of instance `i`. -/
def assign_new (w : World T) (i : Nat) (v : T) : World T :=
  assign (make_shared w v).1 i (some (make_shared w v).2)

/-- Writing `v` through a `T&` that refers to the cell at address `p`. -/
def store (w : World T) (p : Nat) (v : T) : World T :=
  ⟨w.heap.set p (some v), w.data_⟩

/-- Well-formed worlds: every non-empty handle refers to a live cell. -/
def WF (w : World T) : Bool :=
  w.data_.all fun h =>
    match h with
    | none => true
    | some p => (w.cell p).isSome

/-! ## Construction and assignment -/

/-- The constructor `shared_optional()`:
`data_(Init ? std::make_shared<T>() : nullptr)`.
Returns the new world and the number of the new instance. -/
def shared_optional_default (Init : Bool) (dflt : T) (w : World T) : World T × Nat :=
  if Init then
    (⟨(make_shared w dflt).1.heap, w.data_ ++ [some (make_shared w dflt).2]⟩, w.data_.length)
  else
    (⟨w.heap, w.data_ ++ [none]⟩, w.data_.length)

/-- The constructor `shared_optional(const T& v)`: `data_(std::make_shared<T>(v))`. -/
def shared_optional_value (w : World T) (v : T) : World T × Nat :=
  (⟨(make_shared w v).1.heap, w.data_ ++ [some (make_shared w v).2]⟩, w.data_.length)

/-- The defaulted copy constructor: the new instance gets a copy of the
handle of `src`. -/
def shared_optional_copy (w : World T) (src : Nat) : Option (World T × Nat) :=
  if src < w.data_.length then
    some (⟨w.heap, w.data_ ++ [w.handle src]⟩, w.data_.length)
  else none

/-- The defaulted move constructor: the new instance takes the handle of
`src`, which is left empty (`std::shared_ptr`'s move constructor). -/
def shared_optional_move (w : World T) (src : Nat) : Option (World T × Nat) :=
  if src < w.data_.length then
    some (⟨w.heap, w.data_.set src none ++ [w.handle src]⟩, w.data_.length)
  else none

/-- The defaulted copy assignment `dst = src`. -/
def assign_copy (w : World T) (dst src : Nat) : Option (World T) :=
  if dst < w.data_.length ∧ src < w.data_.length then
    some (assign w dst (w.handle src))
  else none

/-- The defaulted move assignment `dst = std::move(src)`: `dst` releases its
handle and takes the one of `src`, which is left empty; moving an instance to
itself leaves it as it is. -/
def assign_move (w : World T) (dst src : Nat) : Option (World T) :=
  if dst < w.data_.length ∧ src < w.data_.length then
    if dst = src then some w
    else some (assign ⟨w.heap, w.data_.set src none⟩ dst (w.handle src))
  else none

/-! ## Member functions -/

/-- `explicit operator bool() const { return static_cast<bool>(data_); }` -/
def op_bool (w : World T) (self : Nat) : Bool :=
  (w.handle self).isSome

/-- `bool empty() const { return !data_; }` -/
def empty (w : World T) (self : Nat) : Bool :=
  !(w.handle self).isSome

/-- `operator*`: `return *data_;` (undefined on an empty handle). -/
def deref (w : World T) (self : Nat) : Option T :=
  (w.handle self).bind w.cell

/-- `is_same`: `return data_ == cmp.data_;` -/
def is_same (w : World T) (self cmp : Nat) : Bool :=
  w.handle self == w.handle cmp

/-- `T& get()`:
```
if (!Init && !data_) { data_ = std::make_shared<T>(); }
if (data_.use_count() > 1) { data_ = std::make_shared<T>(*data_); }
return *data_;
```
Returns the new world and the address the returned reference refers to. -/
def get (Init : Bool) (dflt : T) (w : World T) (self : Nat) : Option (World T × Nat) :=
  if self < w.data_.length then
    let w1 := if !Init && !(w.handle self).isSome then assign_new w self dflt else w
    let w2 := if use_count w1 self > 1 then (deref w1 self).map (assign_new w1 self)
              else some w1
    w2.bind fun w3 => (w3.handle self).bind fun p => (w3.cell p).map fun _ => (w3, p)
  else none

/-- `void clear()`:
```
if (!Init) { data_.reset(); }
else if (data_.use_count() <= 1) { *data_ = T(); }
else { data_ = std::make_shared<T>(); }
```
-/
def clear (Init : Bool) (dflt : T) (w : World T) (self : Nat) : Option (World T) :=
  if self < w.data_.length then
    if !Init then some (assign w self none)
    else if use_count w self ≤ 1 then
      (w.handle self).bind fun p => (w.cell p).map fun _ => store w p dflt
    else some (assign_new w self dflt)
  else none

/-- `operator==(shared_optional const& cmp)`:
```
if (data_ == cmp.data_) { return true; }
else if (!Init && (!data_ || !cmp.data_)) { return false; }
return *data_ == *cmp.data_;
```
-/
def op_eq (Init : Bool) (eqT : T → T → Bool) (w : World T) (self cmp : Nat) : Option Bool :=
  if self < w.data_.length ∧ cmp < w.data_.length then
    if w.handle self = w.handle cmp then some true
    else if !Init && (!(w.handle self).isSome || !(w.handle cmp).isSome) then some false
    else (deref w self).bind fun x => (deref w cmp).map fun y => eqT x y
  else none

/-- `operator!=(shared_optional const& cmp)`: `return !(*this == cmp);` -/
def op_ne (Init : Bool) (eqT : T → T → Bool) (w : World T) (self cmp : Nat) : Option Bool :=
  (op_eq Init eqT w self cmp).map fun r => !r

/-- `operator==(T const& cmp)`:
```
if (!Init && !data_) { return false; }
return *data_ == cmp;
```
-/
def op_eq_value (Init : Bool) (eqT : T → T → Bool) (w : World T) (self : Nat) (cmp : T) :
    Option Bool :=
  if self < w.data_.length then
    if !Init && !(w.handle self).isSome then some false
    else (deref w self).map fun x => eqT x cmp
  else none

/-- `operator!=(T const& cmp)`: `return !(*this == cmp);` -/
def op_ne_value (Init : Bool) (eqT : T → T → Bool) (w : World T) (self : Nat) (cmp : T) :
    Option Bool :=
  (op_eq_value Init eqT w self cmp).map fun r => !r

/-- `operator<(shared_optional const& cmp)`:
```
if (data_ == cmp.data_) { return false; }
else if (!Init && !data_) { return static_cast<bool>(cmp.data_); }
else if (!Init && !cmp.data_) { return false; }
return *data_ < *cmp.data_;
```
-/
def op_lt (Init : Bool) (ltT : T → T → Bool) (w : World T) (self cmp : Nat) : Option Bool :=
  if self < w.data_.length ∧ cmp < w.data_.length then
    if w.handle self = w.handle cmp then some false
    else if !Init && !(w.handle self).isSome then some (w.handle cmp).isSome
    else if !Init && !(w.handle cmp).isSome then some false
    else (deref w self).bind fun x => (deref w cmp).map fun y => ltT x y
  else none

/-- `operator<(T const& cmp)`:
```
if (!Init && !data_) { return true; }
return *data_ < cmp;
```
-/
def op_lt_value (Init : Bool) (ltT : T → T → Bool) (w : World T) (self : Nat) (cmp : T) :
    Option Bool :=
  if self < w.data_.length then
    if !Init && !(w.handle self).isSome then some true
    else (deref w self).map fun x => ltT x cmp
  else none

/-- `operator->`: `return data_.get();`, the stored address (null when empty). -/
def op_arrow (w : World T) (self : Nat) : Option Nat :=
  w.handle self

/-! ## The comparison operators as calls

The comparison operators once more, in state-passing form: every evaluation
step takes the world it finds and hands on the world it leaves, as `get` and
`clear` do.  The steps the bodies are made of are `std::shared_ptr`'s `const`
observers; no body assigns to `data_` or calls `std::make_shared`. -/

/-- `std::shared_ptr::get()` on `data_` of instance `i`, which is also what
`data_ == cmp.data_`, `!data_` and `static_cast<bool>(data_)` read: a `const`
observer that yields the stored address and leaves the world as it found
it. -/
def shared_ptr_get (w : World T) (i : Nat) : World T × Option Nat :=
  (w, w.handle i)

/-- `std::shared_ptr::operator*` on `data_` of instance `i`: the value in the
cell, with the world as it was found; undefined on a null handle. -/
def shared_ptr_deref (w : World T) (i : Nat) : Option (World T × T) :=
  (deref w i).map fun x => (w, x)

/-- A call of `operator==(shared_optional const& cmp)`: the world after the
call and the result.
```
if (data_ == cmp.data_) { return true; }
else if (!Init && (!data_ || !cmp.data_)) { return false; }
return *data_ == *cmp.data_;
```
-/
def call_op_eq (Init : Bool) (eqT : T → T → Bool) (w : World T) (self cmp : Nat) :
    Option (World T × Bool) :=
  if self < w.data_.length ∧ cmp < w.data_.length then
    let r1 := shared_ptr_get w self
    let r2 := shared_ptr_get r1.1 cmp
    if r1.2 = r2.2 then some (r2.1, true)
    else if !Init && (!r1.2.isSome || !r2.2.isSome) then some (r2.1, false)
    else (shared_ptr_deref r2.1 self).bind fun r3 =>
      (shared_ptr_deref r3.1 cmp).map fun r4 => (r4.1, eqT r3.2 r4.2)
  else none

/-- A call of `operator!=(shared_optional const& cmp)`:
`return !(*this == cmp);` -/
def call_op_ne (Init : Bool) (eqT : T → T → Bool) (w : World T) (self cmp : Nat) :
    Option (World T × Bool) :=
  (call_op_eq Init eqT w self cmp).map fun r => (r.1, !r.2)

/-- A call of `operator==(T const& cmp)`:
```
if (!Init && !data_) { return false; }
return *data_ == cmp;
```
-/
def call_op_eq_value (Init : Bool) (eqT : T → T → Bool) (w : World T) (self : Nat)
    (cmp : T) : Option (World T × Bool) :=
  if self < w.data_.length then
    let r1 := shared_ptr_get w self
    if !Init && !r1.2.isSome then some (r1.1, false)
    else (shared_ptr_deref r1.1 self).map fun r2 => (r2.1, eqT r2.2 cmp)
  else none

/-- A call of `operator!=(T const& cmp)`: `return !(*this == cmp);` -/
def call_op_ne_value (Init : Bool) (eqT : T → T → Bool) (w : World T) (self : Nat)
    (cmp : T) : Option (World T × Bool) :=
  (call_op_eq_value Init eqT w self cmp).map fun r => (r.1, !r.2)

/-- A call of `operator<(shared_optional const& cmp)`:
```
if (data_ == cmp.data_) { return false; }
else if (!Init && !data_) { return static_cast<bool>(cmp.data_); }
else if (!Init && !cmp.data_) { return false; }
return *data_ < *cmp.data_;
```
-/
def call_op_lt (Init : Bool) (ltT : T → T → Bool) (w : World T) (self cmp : Nat) :
    Option (World T × Bool) :=
  if self < w.data_.length ∧ cmp < w.data_.length then
    let r1 := shared_ptr_get w self
    let r2 := shared_ptr_get r1.1 cmp
    if r1.2 = r2.2 then some (r2.1, false)
    else if !Init && !r1.2.isSome then some (r2.1, r2.2.isSome)
    else if !Init && !r2.2.isSome then some (r2.1, false)
    else (shared_ptr_deref r2.1 self).bind fun r3 =>
      (shared_ptr_deref r3.1 cmp).map fun r4 => (r4.1, ltT r3.2 r4.2)
  else none

/-- A call of `operator<(T const& cmp)`:
```
if (!Init && !data_) { return true; }
return *data_ < cmp;
```
-/
def call_op_lt_value (Init : Bool) (ltT : T → T → Bool) (w : World T) (self : Nat)
    (cmp : T) : Option (World T × Bool) :=
  if self < w.data_.length then
    let r1 := shared_ptr_get w self
    if !Init && !r1.2.isSome then some (r1.1, true)
    else (shared_ptr_deref r1.1 self).map fun r2 => (r2.1, ltT r2.2 cmp)
  else none

/-- A call of `is_same`: `return data_ == cmp.data_;` -/
def call_is_same (w : World T) (self cmp : Nat) : World T × Bool :=
  let r1 := shared_ptr_get w self
  let r2 := shared_ptr_get r1.1 cmp
  (r2.1, r1.2 == r2.2)

/-! ## Reachable worlds -/

/-- The worlds a program can reach with the public operations, starting with
no instance at all.  A write goes through a reference to a live cell. -/
inductive Reachable (Init : Bool) (dflt : T) : World T → Prop
  | start : Reachable Init dflt ⟨[], []⟩
  | construct_default {w : World T} :
      Reachable Init dflt w → Reachable Init dflt (shared_optional_default Init dflt w).1
  | construct_value {w : World T} (v : T) :
      Reachable Init dflt w → Reachable Init dflt (shared_optional_value w v).1
  | construct_copy {w w1 : World T} {src B : Nat} :
      Reachable Init dflt w → shared_optional_copy w src = some (w1, B) →
      Reachable Init dflt w1
  | construct_move {w w1 : World T} {src B : Nat} :
      Reachable Init dflt w → shared_optional_move w src = some (w1, B) →
      Reachable Init dflt w1
  | copy_assign {w w1 : World T} {dst src : Nat} :
      Reachable Init dflt w → assign_copy w dst src = some w1 → Reachable Init dflt w1
  | move_assign {w w1 : World T} {dst src : Nat} :
      Reachable Init dflt w → assign_move w dst src = some w1 → Reachable Init dflt w1
  | get {w w1 : World T} {self p : Nat} :
      Reachable Init dflt w → fz.get Init dflt w self = some (w1, p) →
      Reachable Init dflt w1
  | write {w : World T} {p : Nat} {x : T} (v : T) :
      Reachable Init dflt w → w.cell p = some x → Reachable Init dflt (store w p v)
  | clear {w w1 : World T} {self : Nat} :
      Reachable Init dflt w → fz.clear Init dflt w self = some w1 →
      Reachable Init dflt w1

/-! ## Basic facts about worlds -/

theorem handle_eq_some {w : World T} {i p : Nat} :
    w.handle i = some p ↔ w.data_[i]? = some (some p) := by
  unfold World.handle
  cases h : w.data_[i]? with
  | none => simp
  | some o => cases o <;> simp

theorem handle_lt {w : World T} {i p : Nat} (h : w.handle i = some p) :
    i < w.data_.length := by
  rw [handle_eq_some] at h
  exact (List.getElem?_eq_some.mp h).1

theorem handle_mem {w : World T} {i p : Nat} (h : w.handle i = some p) :
    some p ∈ w.data_ := by
  rw [handle_eq_some] at h
  exact List.getElem?_mem h

theorem cell_eq_some {w : World T} {p : Nat} {v : T} :
    w.cell p = some v ↔ w.heap[p]? = some (some v) := by
  unfold World.cell
  cases h : w.heap[p]? with
  | none => simp
  | some o => cases o <;> simp

theorem cell_lt {w : World T} {p : Nat} {v : T} (h : w.cell p = some v) :
    p < w.heap.length := by
  rw [cell_eq_some] at h
  exact (List.getElem?_eq_some.mp h).1

theorem WF_iff (w : World T) :
    WF w = true ↔ ∀ i p, w.handle i = some p → ∃ v, w.cell p = some v := by
  unfold WF
  rw [List.all_eq_true]
  constructor
  · intro h i p hi
    have := h _ (handle_mem hi)
    simpa [Option.isSome_iff_exists] using this
  · intro h o ho
    cases o with
    | none => rfl
    | some p =>
      obtain ⟨i, hi⟩ := List.mem_iff_getElem?.mp ho
      obtain ⟨v, hv⟩ := h i p (handle_eq_some.mpr hi)
      simp [hv]

theorem WF_handle_lt {w : World T} (hw : WF w = true) {i p : Nat}
    (h : w.handle i = some p) : p < w.heap.length := by
  obtain ⟨v, hv⟩ := (WF_iff w).mp hw i p h
  exact cell_lt hv

theorem count_pos_of_handle {w : World T} {i p : Nat} (h : w.handle i = some p) :
    0 < w.data_.count (some p) :=
  List.count_pos_iff.mpr (handle_mem h)

theorem count_fresh {w : World T} (hw : WF w = true) :
    w.data_.count (some w.heap.length) = 0 := by
  rw [List.count_eq_zero]
  intro hm
  obtain ⟨i, hi⟩ := List.mem_iff_getElem?.mp hm
  exact absurd (WF_handle_lt hw (handle_eq_some.mpr hi)) (Nat.lt_irrefl _)

theorem use_count_of_handle {w : World T} {i p : Nat} (h : w.handle i = some p) :
    use_count w i = w.data_.count (some p) := by
  simp [use_count, h]

/-! ## What the primitive steps do -/

theorem assign_data (w : World T) (i : Nat) (h : Option Nat) :
    (assign w i h).data_ = w.data_.set i h := by
  unfold assign
  cases w.handle i with
  | none => rfl
  | some p => dsimp only; split <;> rfl

theorem assign_of_empty {w : World T} {i : Nat} (h : Option Nat)
    (hi : w.handle i = none) : assign w i h = ⟨w.heap, w.data_.set i h⟩ := by
  simp [assign, hi]

theorem assign_of_kept {w : World T} {i p : Nat} (h : Option Nat)
    (hi : w.handle i = some p) (hc : (w.data_.set i h).count (some p) ≠ 0) :
    assign w i h = ⟨w.heap, w.data_.set i h⟩ := by
  simp [assign, hi, hc]

theorem handle_set_self {w : World T} {i : Nat} (h : Option Nat) (hi : i < w.data_.length)
    (hp : List (Option T)) : (World.mk hp (w.data_.set i h)).handle i = h := by
  simp [World.handle, hi]

theorem handle_set_ne {w : World T} {i j : Nat} (h : Option Nat) (hij : j ≠ i)
    (hp : List (Option T)) : (World.mk hp (w.data_.set i h)).handle j = w.handle j := by
  simp [World.handle, List.getElem?_set_ne (Ne.symm hij)]

theorem cell_append_old {w : World T} {p : Nat} {x : T} (v : T) (d : List (Option Nat))
    (hp : w.cell p = some x) : (World.mk (w.heap ++ [some v]) d).cell p = some x := by
  have hlt := cell_lt hp
  rw [cell_eq_some] at hp ⊢
  simp [List.getElem?_append_left hlt, hp]

theorem cell_append_new (w : World T) (v : T) (d : List (Option Nat)) :
    (World.mk (w.heap ++ [some v]) d).cell w.heap.length = some v := by
  simp [World.cell]

/-- The handle of `i` counted after `i` took a handle that nobody has. -/
theorem count_set_fresh {d : List (Option Nat)} {i q : Nat} (hi : i < d.length)
    (hq : d.count (some q) = 0) : (d.set i (some q)).count (some q) = 1 := by
  rw [List.count_set _ _ _ _ hi, hq]
  simp

/-- The old handle of `i` counted after `i` took another handle. -/
theorem count_set_old {d : List (Option Nat)} {i p : Nat} {h : Option Nat}
    (hi : d[i]? = some (some p)) (hne : h ≠ some p) :
    (d.set i h).count (some p) = d.count (some p) - 1 := by
  obtain ⟨hlt, hget⟩ := List.getElem?_eq_some.mp hi
  rw [List.count_set _ _ _ _ hlt]
  have h1 : (d[i] == some p) = true := by rw [hget]; simp
  have h2 : (h == some p) = false := by simpa using hne
  simp [h1, h2]

/-- The three cases of `get`. -/
theorem get_of_empty {w : World T} {self : Nat} (dflt : T) (hw : WF w = true)
    (hs : self < w.data_.length) (he : w.handle self = none) :
    get false dflt w self
      = some (⟨w.heap ++ [some dflt], w.data_.set self (some w.heap.length)⟩,
              w.heap.length) := by
  have h1 : assign_new w self dflt
      = ⟨w.heap ++ [some dflt], w.data_.set self (some w.heap.length)⟩ := by
    unfold assign_new make_shared
    exact assign_of_empty (w := ⟨w.heap ++ [some dflt], w.data_⟩) _ he
  have h2 : (World.mk (w.heap ++ [some dflt]) (w.data_.set self (some w.heap.length))).handle self
      = some w.heap.length := handle_set_self _ hs _
  have h3 : use_count (World.mk (w.heap ++ [some dflt])
      (w.data_.set self (some w.heap.length))) self = 1 := by
    rw [use_count_of_handle h2]
    exact count_set_fresh hs (count_fresh hw)
  simp [get, hs, he, h1, h2, h3, cell_append_new]

theorem get_of_sole {w : World T} {self p : Nat} {x : T} (Init : Bool) (dflt : T)
    (hh : w.handle self = some p) (hc : use_count w self ≤ 1) (hx : w.cell p = some x) :
    get Init dflt w self = some (w, p) := by
  have hs := handle_lt hh
  have : ¬ (1 < use_count w self) := by omega
  simp [get, hs, hh, this, hx]

theorem get_of_shared {w : World T} {self p : Nat} {x : T} (Init : Bool) (dflt : T)
    (hh : w.handle self = some p) (hc : 1 < use_count w self) (hx : w.cell p = some x) :
    get Init dflt w self
      = some (⟨w.heap ++ [some x], w.data_.set self (some w.heap.length)⟩,
              w.heap.length) := by
  have hs := handle_lt hh
  have hd : deref w self = some x := by simp [deref, hh, hx]
  have hne : some w.heap.length ≠ some p := by
    have := cell_lt hx
    intro h; injection h; omega
  have h1 : assign_new w self x
      = ⟨w.heap ++ [some x], w.data_.set self (some w.heap.length)⟩ := by
    unfold assign_new make_shared
    refine assign_of_kept (w := ⟨w.heap ++ [some x], w.data_⟩) _ hh ?_
    rw [count_set_old (handle_eq_some.mp hh) hne]
    rw [use_count_of_handle hh] at hc
    omega
  have h2 : (World.mk (w.heap ++ [some x]) (w.data_.set self (some w.heap.length))).handle self
      = some w.heap.length := handle_set_self _ hs _
  simp [get, hs, hh, hc, hd, h1, h2, cell_append_new]


/-- The cases of `clear`. -/
theorem clear_of_optional {w : World T} {self : Nat} (dflt : T)
    (hs : self < w.data_.length) :
    clear false dflt w self = some (assign w self none) := by
  simp [clear, hs]

theorem clear_of_sole {w : World T} {self p : Nat} {x : T} (dflt : T)
    (hh : w.handle self = some p) (hc : use_count w self ≤ 1) (hx : w.cell p = some x) :
    clear true dflt w self = some (store w p dflt) := by
  simp [clear, handle_lt hh, hh, hc, hx]

theorem clear_of_shared {w : World T} {self p : Nat} (dflt : T)
    (hh : w.handle self = some p) (hc : 1 < use_count w self) (hw : WF w = true) :
    clear true dflt w self
      = some ⟨w.heap ++ [some dflt], w.data_.set self (some w.heap.length)⟩ := by
  have hne : some w.heap.length ≠ some p := by
    have := WF_handle_lt hw hh
    intro h; injection h; omega
  have h1 : assign_new w self dflt
      = ⟨w.heap ++ [some dflt], w.data_.set self (some w.heap.length)⟩ := by
    unfold assign_new make_shared
    refine assign_of_kept (w := ⟨w.heap ++ [some dflt], w.data_⟩) _ hh ?_
    rw [count_set_old (handle_eq_some.mp hh) hne]
    rw [use_count_of_handle hh] at hc
    omega
  have : ¬ (use_count w self ≤ 1) := by omega
  simp [clear, handle_lt hh, this, h1]

/-- Two instances holding the same handle make its count at least two. -/
theorem two_le_count {d : List (Option Nat)} {i j p : Nat} (hij : j ≠ i)
    (hi : d[i]? = some (some p)) (hj : d[j]? = some (some p)) :
    2 ≤ d.count (some p) := by
  have h1 : (d.set i none).count (some p) = d.count (some p) - 1 :=
    count_set_old hi (by simp)
  have h2 : (d.set i none)[j]? = some (some p) := by
    rw [List.getElem?_set_ne (Ne.symm hij)]; exact hj
  have h3 : 0 < (d.set i none).count (some p) :=
    List.count_pos_iff.mpr (List.getElem?_mem h2)
  omega

theorem handle_ne_of_sole {w : World T} {self j p : Nat} (hh : w.handle self = some p)
    (hc : use_count w self ≤ 1) (hj : j ≠ self) : w.handle j ≠ some p := by
  intro h
  rw [use_count_of_handle hh] at hc
  have := two_le_count hj (handle_eq_some.mp hh) (handle_eq_some.mp h)
  omega

theorem cell_store_ne (w : World T) {p q : Nat} (v : T) (h : q ≠ p) :
    (store w p v).cell q = w.cell q := by
  simp [store, World.cell, List.getElem?_set_ne (Ne.symm h)]

theorem cell_store_self {w : World T} {p : Nat} (v : T) (h : p < w.heap.length) :
    (store w p v).cell p = some v := by
  simp [store, World.cell, h]

theorem handle_store (w : World T) (p : Nat) (v : T) (i : Nat) :
    (store w p v).handle i = w.handle i := rfl

/-- Every handle of a well-formed world still refers to a live cell after
one instance took a newly made cell. -/
theorem WF_rebind_new {w : World T} (hw : WF w = true) (self : Nat) (v : T) :
    WF (World.mk (w.heap ++ [some v]) (w.data_.set self (some w.heap.length))) = true := by
  rw [WF_iff]
  intro i q hi
  by_cases hself : i = self
  · subst hself
    have hlt : i < w.data_.length := by
      have := handle_lt hi
      simpa using this
    rw [handle_set_self _ hlt] at hi
    injection hi with hi
    subst hi
    exact ⟨v, cell_append_new w v _⟩
  · rw [handle_set_ne _ hself] at hi
    obtain ⟨y, hy⟩ := (WF_iff w).mp hw i q hi
    exact ⟨y, cell_append_old v _ hy⟩

/-- What `get` does, in one statement: it returns, the instance then holds the
returned cell alone, the other instances keep their handles, no live cell
changes, and the returned cell holds the value read before (the default value
for an empty instance). -/
theorem get_spec (Init : Bool) (dflt : T) {w : World T} {self : Nat} (hw : WF w = true)
    (hs : self < w.data_.length) (hne : Init = false ∨ (w.handle self).isSome = true) :
    ∃ w1 p, get Init dflt w self = some (w1, p) ∧ WF w1 = true ∧
      w1.data_.length = w.data_.length ∧
      w1.handle self = some p ∧ use_count w1 self = 1 ∧
      w1.cell p = some ((deref w self).getD dflt) ∧
      (∀ j, j ≠ self → w1.handle j = w.handle j ∧ w1.handle j ≠ some p) ∧
      (∀ q y, w.cell q = some y → w1.cell q = some y) := by
  cases he : w.handle self with
  | none =>
    have hI : Init = false := by
      rcases hne with h | h
      · exact h
      · simp [he] at h
    subst hI
    refine ⟨_, _, get_of_empty dflt hw hs he, WF_rebind_new hw self dflt, by simp,
      handle_set_self _ hs _, ?_, ?_, ?_, ?_⟩
    · rw [use_count_of_handle (handle_set_self _ hs _)]
      exact count_set_fresh hs (count_fresh hw)
    · simp [deref, he, cell_append_new]
    · intro j hj
      rw [handle_set_ne _ hj]
      refine ⟨rfl, fun h => ?_⟩
      exact absurd (WF_handle_lt hw h) (Nat.lt_irrefl _)
    · intro q y hy
      exact cell_append_old dflt _ hy
  | some p =>
    obtain ⟨x, hx⟩ := (WF_iff w).mp hw self p he
    have hd : deref w self = some x := by simp [deref, he, hx]
    by_cases hc : use_count w self ≤ 1
    · refine ⟨w, p, get_of_sole Init dflt he hc hx, hw, rfl, he, ?_, ?_, ?_, ?_⟩
      · have := count_pos_of_handle he
        rw [use_count_of_handle he] at hc ⊢
        omega
      · simp [hd, hx]
      · intro j hj
        exact ⟨rfl, handle_ne_of_sole he hc hj⟩
      · intro q y hy
        exact hy
    · have hc1 : 1 < use_count w self := by omega
      refine ⟨_, _, get_of_shared Init dflt he hc1 hx, WF_rebind_new hw self x, by simp,
        handle_set_self _ hs _, ?_, ?_, ?_, ?_⟩
      · rw [use_count_of_handle (handle_set_self _ hs _)]
        exact count_set_fresh hs (count_fresh hw)
      · simp [hd, cell_append_new]
      · intro j hj
        rw [handle_set_ne _ hj]
        refine ⟨rfl, fun h => ?_⟩
        exact absurd (WF_handle_lt hw h) (Nat.lt_irrefl _)
      · intro q y hy
        exact cell_append_old x _ hy

/-! ## Assignment of handles -/

theorem handle_assign_self {w : World T} {i : Nat} (h : Option Nat)
    (hi : i < w.data_.length) : (assign w i h).handle i = h := by
  simp [World.handle, assign_data, hi]

theorem handle_assign_ne (w : World T) {i j : Nat} (h : Option Nat) (hj : j ≠ i) :
    (assign w i h).handle j = w.handle j := by
  simp [World.handle, assign_data, List.getElem?_set_ne (Ne.symm hj)]

theorem heap_length_assign (w : World T) (i : Nat) (h : Option Nat) :
    (assign w i h).heap.length = w.heap.length := by
  unfold assign
  cases w.handle i with
  | none => rfl
  | some p => dsimp only; split <;> simp

/-- A cell that some instance refers to after an assignment was not destroyed
by it. -/
theorem cell_assign_of_handle {w : World T} {i j q : Nat} {h : Option Nat}
    (hj : (assign w i h).handle j = some q) : (assign w i h).cell q = w.cell q := by
  have hm : some q ∈ w.data_.set i h := by
    have := handle_mem hj
    rwa [assign_data] at this
  unfold assign
  cases hp : w.handle i with
  | none => rfl
  | some p =>
    dsimp only
    split
    · next hz =>
      have hqp : q ≠ p := by
        rintro rfl
        exact absurd (List.count_pos_iff.mpr hm) (by omega)
      simp [World.cell, List.getElem?_set_ne (Ne.symm hqp)]
    · rfl

theorem WF_assign {w : World T} (hw : WF w = true) {i : Nat} {h : Option Nat}
    (hh : ∀ q, h = some q → ∃ y, w.cell q = some y) : WF (assign w i h) = true := by
  rw [WF_iff]
  intro j q hj
  rw [cell_assign_of_handle hj]
  by_cases hji : j = i
  · subst hji
    have hlt : j < w.data_.length := by
      have := handle_lt hj
      simpa [assign_data] using this
    rw [handle_assign_self _ hlt] at hj
    exact hh q hj
  · rw [handle_assign_ne _ _ hji] at hj
    exact (WF_iff w).mp hw j q hj

theorem deref_assign_ne {w : World T} (i : Nat) (h : Option Nat) {j : Nat} (hj : j ≠ i) :
    deref (assign w i h) j = deref w j := by
  unfold deref
  cases hq : (assign w i h).handle j with
  | none => rw [handle_assign_ne _ _ hj] at hq; simp [hq]
  | some q =>
    have := cell_assign_of_handle hq
    rw [handle_assign_ne _ _ hj] at hq
    simp [hq, this]

/-! ## Copies -/

theorem handle_append_old {d : List (Option Nat)} {j : Nat} (hp : List (Option T))
    (h : Option Nat) (hj : j < d.length) :
    (World.mk hp (d ++ [h])).handle j = (World.mk hp d).handle j := by
  simp [World.handle, List.getElem?_append_left hj]

theorem handle_append_new (d : List (Option Nat)) (hp : List (Option T)) (h : Option Nat) :
    (World.mk hp (d ++ [h])).handle d.length = h := by
  simp [World.handle]

theorem WF_append {w : World T} (hw : WF w = true) {h : Option Nat}
    (hh : h = none ∨ ∃ k, w.handle k = h) : WF (World.mk w.heap (w.data_ ++ [h])) = true := by
  rw [WF_iff]
  intro j q hj
  have hlt : j < w.data_.length + 1 := by
    have := handle_lt hj
    simpa using this
  by_cases hjl : j < w.data_.length
  · rw [handle_append_old _ _ hjl] at hj
    exact (WF_iff w).mp hw j q hj
  · have : j = w.data_.length := by omega
    subst this
    rw [handle_append_new] at hj
    rcases hh with h0 | ⟨k, hk⟩
    · rw [h0] at hj; cases hj
    · exact (WF_iff w).mp hw k q (hk.trans hj)

/-- Isolation of a write made through the reference `get` returns: every
other instance reads afterwards what it read before, and the instance itself
reads the value written. -/
theorem get_store_frame (Init : Bool) (dflt : T) {w : World T} {i : Nat} (hw : WF w = true)
    (hi : i < w.data_.length) (hne : Init = false ∨ (w.handle i).isSome = true) :
    ∃ w1 p, get Init dflt w i = some (w1, p) ∧
      ∀ v, deref (store w1 p v) i = some v ∧
        ∀ j, j ≠ i → deref (store w1 p v) j = deref w j := by
  obtain ⟨w1, p, hg, hw1, -, hh, -, hc, hoth, hfr⟩ := get_spec Init dflt hw hi hne
  refine ⟨w1, p, hg, fun v => ⟨?_, fun j hj => ?_⟩⟩
  · simp [deref, handle_store, hh, cell_store_self v (cell_lt hc)]
  · obtain ⟨h1, h2⟩ := hoth j hj
    unfold deref
    rw [handle_store, h1]
    cases hq : w.handle j with
    | none => rfl
    | some q =>
      have hqp : q ≠ p := by
        rintro rfl
        exact h2 (h1.trans hq)
      obtain ⟨y, hy⟩ := (WF_iff w).mp hw j q hq
      simp [cell_store_ne _ v hqp, hfr q y hy, hy]


/-- After the copy constructor, both instances refer to the cell of the
source and the world stays well-formed. -/
theorem copy_construct_facts {w wc : World T} {A B : Nat} (hw : WF w = true)
    (hc : shared_optional_copy w A = some (wc, B)) :
    WF wc = true ∧ A < w.data_.length ∧ B = w.data_.length ∧
      wc = ⟨w.heap, w.data_ ++ [w.handle A]⟩ ∧
      wc.handle B = w.handle A ∧ ∀ j, j < w.data_.length → wc.handle j = w.handle j := by
  unfold shared_optional_copy at hc
  split at hc
  · next hlt =>
    simp only [Option.some.injEq, Prod.mk.injEq] at hc
    obtain ⟨rfl, rfl⟩ := hc
    refine ⟨WF_append hw (Or.inr ⟨A, rfl⟩), hlt, rfl, rfl, handle_append_new _ _ _, ?_⟩
    intro j hj
    exact handle_append_old _ _ hj
  · cases hc

/-- After the copy assignment `B = A`, both instances refer to the cell of
`A`, the other instances keep their handles and the world stays well-formed. -/
theorem copy_assign_facts {w wc : World T} {A B : Nat} (hw : WF w = true)
    (hc : assign_copy w B A = some wc) :
    WF wc = true ∧ A < w.data_.length ∧ B < w.data_.length ∧
      wc = assign w B (w.handle A) ∧
      wc.handle B = w.handle A ∧ ∀ j, j ≠ B → wc.handle j = w.handle j := by
  unfold assign_copy at hc
  split at hc
  · next hlt =>
    simp only [Option.some.injEq] at hc
    subst hc
    refine ⟨WF_assign hw (fun q hq => (WF_iff w).mp hw A q hq), hlt.2, hlt.1, rfl,
      handle_assign_self _ hlt.1, ?_⟩
    intro j hj
    exact handle_assign_ne _ _ hj
  · cases hc

/-- Two different instances that read the same value are isolated from each
other's writes through `get`. -/
theorem isolation_of_two (Init : Bool) (dflt : T) {w : World T} {A B : Nat} {x : T}
    (hw : WF w = true) (hAB : B ≠ A) (hA : deref w A = some x) (hB : deref w B = some x) :
    ∃ w1 p, get Init dflt w B = some (w1, p) ∧
      ∀ v, deref (store w1 p v) A = some x ∧ deref (store w1 p v) B = some v := by
  have hsome : (w.handle B).isSome = true := by
    cases h : w.handle B with
    | none => simp [deref, h] at hB
    | some q => rfl
  have hlt : B < w.data_.length := by
    obtain ⟨q, hq⟩ := Option.isSome_iff_exists.mp hsome
    exact handle_lt hq
  obtain ⟨w1, p, hg, hfr⟩ := get_store_frame Init dflt hw hlt (Or.inr hsome)
  refine ⟨w1, p, hg, fun v => ⟨?_, (hfr v).1⟩⟩
  rw [(hfr v).2 A (Ne.symm hAB)]
  exact hA

/-! ## Reachable worlds are well-formed -/

theorem WF_store {w : World T} (hw : WF w = true) (p : Nat) (v : T) :
    WF (store w p v) = true := by
  rw [WF_iff]
  intro i q hi
  rw [handle_store] at hi
  obtain ⟨y, hy⟩ := (WF_iff w).mp hw i q hi
  by_cases hqp : q = p
  · subst hqp
    exact ⟨v, cell_store_self v (cell_lt hy)⟩
  · exact ⟨y, by rw [cell_store_ne _ _ hqp]; exact hy⟩

theorem WF_construct_new {w : World T} (hw : WF w = true) (v : T) :
    WF (World.mk (w.heap ++ [some v]) (w.data_ ++ [some w.heap.length])) = true := by
  rw [WF_iff]
  intro j q hj
  have hlt : j < w.data_.length + 1 := by
    have := handle_lt hj
    simpa using this
  by_cases hjl : j < w.data_.length
  · rw [handle_append_old _ _ hjl] at hj
    obtain ⟨y, hy⟩ := (WF_iff w).mp hw j q hj
    exact ⟨y, cell_append_old v _ hy⟩
  · have : j = w.data_.length := by omega
    subst this
    rw [handle_append_new] at hj
    injection hj with hj
    subst hj
    exact ⟨v, cell_append_new w v _⟩

theorem WF_set_none {w : World T} (hw : WF w = true) (i : Nat) :
    WF (World.mk w.heap (w.data_.set i none)) = true := by
  rw [WF_iff]
  intro j q hj
  by_cases hji : j = i
  · subst hji
    have hlt : j < w.data_.length := by
      have := handle_lt hj
      simpa using this
    rw [handle_set_self _ hlt] at hj
    cases hj
  · rw [handle_set_ne _ hji] at hj
    exact (WF_iff w).mp hw j q hj

theorem WF_get {w w1 : World T} {Init : Bool} {dflt : T} {self p : Nat} (hw : WF w = true)
    (hg : get Init dflt w self = some (w1, p)) : WF w1 = true := by
  have hs : self < w.data_.length := by
    by_contra h
    simp [get, h] at hg
  have hne : Init = false ∨ (w.handle self).isSome = true := by
    cases hI : Init with
    | false => exact Or.inl rfl
    | true =>
      right
      cases hh : w.handle self with
      | none =>
        subst hI
        simp [get, hs, hh, use_count] at hg
      | some q => rfl
  obtain ⟨w2, p2, hg2, hw2, -⟩ := get_spec Init dflt hw hs hne
  rw [hg] at hg2
  simp only [Option.some.injEq, Prod.mk.injEq] at hg2
  rw [hg2.1]
  exact hw2

theorem WF_clear {w w1 : World T} {Init : Bool} {dflt : T} {self : Nat} (hw : WF w = true)
    (hc : clear Init dflt w self = some w1) : WF w1 = true := by
  have hs : self < w.data_.length := by
    by_contra h
    simp [clear, h] at hc
  cases hI : Init with
  | false =>
    subst hI
    rw [clear_of_optional dflt hs] at hc
    simp only [Option.some.injEq] at hc
    subst hc
    exact WF_assign hw (fun q hq => by cases hq)
  | true =>
    subst hI
    cases hh : w.handle self with
    | none => simp [clear, hs, hh, use_count] at hc
    | some q =>
      obtain ⟨x, hx⟩ := (WF_iff w).mp hw self q hh
      by_cases hu : use_count w self ≤ 1
      · rw [clear_of_sole dflt hh hu hx] at hc
        simp only [Option.some.injEq] at hc
        subst hc
        exact WF_store hw _ _
      · rw [clear_of_shared dflt hh (by omega) hw] at hc
        simp only [Option.some.injEq] at hc
        subst hc
        exact WF_rebind_new hw self dflt

theorem WF_construct_move {w w1 : World T} {src B : Nat} (hw : WF w = true)
    (hc : shared_optional_move w src = some (w1, B)) : WF w1 = true := by
  unfold shared_optional_move at hc
  split at hc
  · simp only [Option.some.injEq, Prod.mk.injEq] at hc
    rw [← hc.1, WF_iff]
    intro j q hj
    have hlt : j < w.data_.length + 1 := by
      have := handle_lt hj
      simpa using this
    have hlen : (w.data_.set src none).length = w.data_.length := by simp
    by_cases hjl : j < w.data_.length
    · rw [handle_append_old _ _ (by omega)] at hj
      exact (WF_iff _).mp (WF_set_none hw src) j q hj
    · have hjeq : j = (w.data_.set src none).length := by omega
      subst hjeq
      rw [handle_append_new] at hj
      exact (WF_iff w).mp hw src q hj
  · cases hc

theorem WF_assign_move {w w1 : World T} {dst src : Nat} (hw : WF w = true)
    (hc : assign_move w dst src = some w1) : WF w1 = true := by
  unfold assign_move at hc
  split at hc
  · split at hc
    · simp only [Option.some.injEq] at hc
      rw [← hc]; exact hw
    · simp only [Option.some.injEq] at hc
      rw [← hc]
      exact WF_assign (WF_set_none hw src) (fun q hq => (WF_iff w).mp hw src q hq)
  · cases hc

/-- Every world reachable with the public operations is well-formed. -/
theorem reachable_WF {Init : Bool} {dflt : T} {w : World T} (h : Reachable Init dflt w) :
    WF w = true := by
  induction h with
  | start => rfl
  | construct_default _ ih =>
    cases Init with
    | false => exact WF_append ih (Or.inl rfl)
    | true => exact WF_construct_new ih dflt
  | construct_value v _ ih => exact WF_construct_new ih v
  | construct_copy _ hc ih => exact (copy_construct_facts ih hc).1
  | construct_move _ hc ih => exact WF_construct_move ih hc
  | copy_assign _ hc ih => exact (copy_assign_facts ih hc).1
  | move_assign _ hc ih => exact WF_assign_move ih hc
  | get _ hg ih => exact WF_get ih hg
  | write v _ _ ih => exact WF_store ih _ v
  | clear _ hc ih => exact WF_clear ih hc

/-! ## The claims -/

/-- C1 (sharing isolation).  Let instance `A` hold the value `x` and let `B` be
a copy of `A`, made by the copy constructor or by copy assignment to some
other instance.  Then `B.get()` returns, and after any value `v` is written
through the returned reference `A` still reads `x` while `B` reads `v`; and
the same holds with the roles of `A` and `B` exchanged. -/
theorem sharing_isolation (Init : Bool) (dflt : T) (w wc : World T) (A B : Nat) (x : T)
    (hw : WF w = true) (hA : deref w A = some x)
    (hcopy : shared_optional_copy w A = some (wc, B) ∨
      (B ≠ A ∧ assign_copy w B A = some wc)) :
    (∃ w1 p, get Init dflt wc B = some (w1, p) ∧
      ∀ v, deref (store w1 p v) A = some x ∧ deref (store w1 p v) B = some v) ∧
    (∃ w1 p, get Init dflt wc A = some (w1, p) ∧
      ∀ v, deref (store w1 p v) B = some x ∧ deref (store w1 p v) A = some v) := by
  have key : WF wc = true ∧ B ≠ A ∧ deref wc A = some x ∧ deref wc B = some x := by
    rcases hcopy with hc | ⟨hBA, hc⟩
    · obtain ⟨hwc, hlt, hB, rfl, hhB, hold⟩ := copy_construct_facts hw hc
      refine ⟨hwc, by omega, ?_, ?_⟩
      · unfold deref; rw [hold A hlt]; exact hA
      · unfold deref; rw [hhB]; exact hA
    · obtain ⟨hwc, -, -, rfl, hhB, hold⟩ := copy_assign_facts hw hc
      refine ⟨hwc, hBA, ?_, ?_⟩
      · rw [deref_assign_ne _ _ (Ne.symm hBA)]; exact hA
      · cases hq : w.handle A with
        | none => simp [deref, hq] at hA
        | some q =>
          rw [hq] at hhB
          simp only [deref, hq, Option.some_bind] at hA
          simp only [deref, hhB, Option.some_bind]
          rw [cell_assign_of_handle hhB]
          exact hA
  obtain ⟨hwc, hBA, hdA, hdB⟩ := key
  exact ⟨isolation_of_two Init dflt hwc hBA hdA hdB,
    isolation_of_two Init dflt hwc (Ne.symm hBA) hdB hdA⟩

/-- The scenario of the specification: `A` holds 5, `B` is a copy of `A`. -/
theorem sharing_isolation_witness :
    WF (⟨[some 5], [some 0]⟩ : World Nat) = true ∧
    deref (⟨[some 5], [some 0]⟩ : World Nat) 0 = some 5 ∧
    shared_optional_copy (⟨[some 5], [some 0]⟩ : World Nat) 0
      = some (⟨[some 5], [some 0, some 0]⟩, 1) ∧
    ((∃ w1 p, get false 0 (⟨[some 5], [some 0, some 0]⟩ : World Nat) 1 = some (w1, p) ∧
      ∀ v, deref (store w1 p v) 0 = some 5 ∧ deref (store w1 p v) 1 = some v) ∧
    (∃ w1 p, get false 0 (⟨[some 5], [some 0, some 0]⟩ : World Nat) 0 = some (w1, p) ∧
      ∀ v, deref (store w1 p v) 1 = some 5 ∧ deref (store w1 p v) 0 = some v)) :=
  ⟨rfl, rfl, rfl,
    sharing_isolation false 0 ⟨[some 5], [some 0]⟩ ⟨[some 5], [some 0, some 0]⟩ 0 1 5
      rfl rfl (Or.inl rfl)⟩


/-- C2 (always-present invariant), evaluated where it fails.  A `shared_value`
is default-constructed (it holds a default-constructed value) and then used as
the source of the move constructor: the moved-from instance has an empty
handle, `empty()` is true, `operator bool` is false, and `operator*`, `get()`
and `clear()` on it dereference the null handle. -/
theorem shared_value_moved_from_empty :
    (shared_optional_default true (0 : Nat) ⟨[], []⟩).1 = ⟨[some 0], [some 0]⟩ ∧
    shared_optional_move (⟨[some 0], [some 0]⟩ : World Nat) 0
      = some (⟨[some 0], [none, some 0]⟩, 1) ∧
    empty (⟨[some 0], [none, some 0]⟩ : World Nat) 0 = true ∧
    op_bool (⟨[some 0], [none, some 0]⟩ : World Nat) 0 = false ∧
    deref (⟨[some 0], [none, some 0]⟩ : World Nat) 0 = none ∧
    get true 0 (⟨[some 0], [none, some 0]⟩ : World Nat) 0 = none ∧
    clear true 0 (⟨[some 0], [none, some 0]⟩ : World Nat) 0 = none ∧
    assign_move (⟨[some 0, some 0], [some 0, some 1]⟩ : World Nat) 0 1
      = some ⟨[none, some 0], [some 1, none]⟩ ∧
    empty (⟨[none, some 0], [some 1, none]⟩ : World Nat) 1 = true :=
  ⟨rfl, rfl, rfl, rfl, rfl, rfl, rfl, rfl, rfl⟩

/-- C3 (`get()` returns exclusively owned storage).  For an instance that is
empty in the optional instantiation, or holds storage with any reference
count in either instantiation, `get()` returns; afterwards the instance is not
empty, the reference count of the cell it refers to (the cell the returned
reference points into) is exactly 1, and no other instance refers to it. -/
theorem get_exclusive (Init : Bool) (dflt : T) (w : World T) (self : Nat)
    (hw : WF w = true) (hs : self < w.data_.length)
    (hne : (Init = false ∧ w.handle self = none) ∨ ∃ q, w.handle self = some q) :
    ∃ w1 p, get Init dflt w self = some (w1, p) ∧
      empty w1 self = false ∧ w1.handle self = some p ∧ use_count w1 self = 1 ∧
      ∀ j, j ≠ self → w1.handle j ≠ some p := by
  have hne2 : Init = false ∨ (w.handle self).isSome = true := by
    rcases hne with h | ⟨q, hq⟩
    · exact Or.inl h.1
    · exact Or.inr (by simp [hq])
  obtain ⟨w1, p, hg, -, -, hh, hc, -, hoth, -⟩ := get_spec Init dflt hw hs hne2
  exact ⟨w1, p, hg, by simp [empty, hh], hh, hc, fun j hj => (hoth j hj).2⟩

/-- Instance 1 shares its cell with instance 0; instance 2 is empty. -/
theorem get_exclusive_witness :
    WF (⟨[some 5], [some 0, some 0, none]⟩ : World Nat) = true ∧
    (∃ w1 p, get false 0 (⟨[some 5], [some 0, some 0, none]⟩ : World Nat) 1 = some (w1, p) ∧
      empty w1 1 = false ∧ w1.handle 1 = some p ∧ use_count w1 1 = 1 ∧
      ∀ j, j ≠ 1 → w1.handle j ≠ some p) :=
  ⟨rfl, get_exclusive false 0 ⟨[some 5], [some 0, some 0, none]⟩ 1 rfl (by decide)
    (Or.inr ⟨0, rfl⟩)⟩


/-- C4 (copy-on-write triggers exactly on sharing).  Let `A` refer to the cell
`pa`.  If `A` is the sole owner, `get()` returns a reference to `pa` and
changes nothing: no cell is allocated and `A` refers to `pa` as before.  If the
cell is shared, `get()` allocates exactly one cell (the heap grows by one
cell, at an address that did not exist before), `A` refers to it afterwards,
and `is_same(A, B)` is false for every other instance `B` that shared `pa`,
which still refers to `pa`. -/
theorem cow_exactly_on_sharing (Init : Bool) (dflt : T) (w : World T) (A pa : Nat)
    (hw : WF w = true) (hh : w.handle A = some pa) :
    (use_count w A = 1 → get Init dflt w A = some (w, pa)) ∧
    (1 < use_count w A →
      ∃ w1, get Init dflt w A = some (w1, w.heap.length) ∧
        w1.heap.length = w.heap.length + 1 ∧
        w1.handle A = some w.heap.length ∧
        ∀ B, B ≠ A → w.handle B = some pa →
          is_same w1 A B = false ∧ w1.handle B = some pa) := by
  obtain ⟨x, hx⟩ := (WF_iff w).mp hw A pa hh
  have hA := handle_lt hh
  constructor
  · intro hc
    exact get_of_sole Init dflt hh (by omega) hx
  · intro hc
    refine ⟨_, get_of_shared Init dflt hh hc hx, by simp, handle_set_self _ hA _, ?_⟩
    intro B hB hBh
    have h1 : (World.mk (w.heap ++ [some x])
        (w.data_.set A (some w.heap.length))).handle B = some pa := by
      rw [handle_set_ne _ hB]; exact hBh
    refine ⟨?_, h1⟩
    have hlt := cell_lt hx
    simp only [is_same, handle_set_self _ hA, h1]
    simp only [beq_eq_false_iff_ne, ne_eq, Option.some.injEq]
    omega

/-- Instance 0 owns cell 1 alone; instances 1 and 2 share cell 0. -/
theorem cow_exactly_on_sharing_witness :
    WF (⟨[some 5, some 7], [some 1, some 0, some 0]⟩ : World Nat) = true ∧
    ((use_count (⟨[some 5, some 7], [some 1, some 0, some 0]⟩ : World Nat) 1 = 1 →
      get false 0 (⟨[some 5, some 7], [some 1, some 0, some 0]⟩ : World Nat) 1
        = some (⟨[some 5, some 7], [some 1, some 0, some 0]⟩, 0)) ∧
    (1 < use_count (⟨[some 5, some 7], [some 1, some 0, some 0]⟩ : World Nat) 1 →
      ∃ w1, get false 0 (⟨[some 5, some 7], [some 1, some 0, some 0]⟩ : World Nat) 1
          = some (w1, 2) ∧
        w1.heap.length = 2 + 1 ∧
        w1.handle 1 = some 2 ∧
        ∀ B, B ≠ 1 →
          (⟨[some 5, some 7], [some 1, some 0, some 0]⟩ : World Nat).handle B = some 0 →
          is_same w1 1 B = false ∧ w1.handle B = some 0)) :=
  ⟨rfl, cow_exactly_on_sharing false 0 ⟨[some 5, some 7], [some 1, some 0, some 0]⟩ 1 0
    rfl rfl⟩

/-- C5 (`get()` preserves the value).  If `A` reads `x` before the call, then
`get()` returns, the cell the returned reference refers to holds `x`, and `A`
reads `x` after the call: a copy made by `get()` is a copy of the current
value, whatever the default value is. -/
theorem get_preserves_value (Init : Bool) (dflt : T) (w : World T) (A : Nat) (x : T)
    (hx : deref w A = some x) :
    ∃ w1 p, get Init dflt w A = some (w1, p) ∧ w1.cell p = some x ∧
      deref w1 A = some x := by
  cases hh : w.handle A with
  | none => simp [deref, hh] at hx
  | some pa =>
    have hc : w.cell pa = some x := by simpa [deref, hh] using hx
    have hA := handle_lt hh
    by_cases hu : use_count w A ≤ 1
    · exact ⟨w, pa, get_of_sole Init dflt hh hu hc, hc, hx⟩
    · refine ⟨_, _, get_of_shared Init dflt hh (by omega) hc, cell_append_new w x _, ?_⟩
      simp only [deref, handle_set_self _ hA, Option.some_bind]
      exact cell_append_new w x _

/-- A shared instance holding 5, with default value 0. -/
theorem get_preserves_value_witness :
    deref (⟨[some 5], [some 0, some 0]⟩ : World Nat) 1 = some 5 ∧
    ∃ w1 p, get false 0 (⟨[some 5], [some 0, some 0]⟩ : World Nat) 1 = some (w1, p) ∧
      w1.cell p = some 5 ∧ deref w1 1 = some 5 :=
  ⟨rfl, get_preserves_value false 0 ⟨[some 5], [some 0, some 0]⟩ 1 5 rfl⟩


/-- C6 (copying shares storage).  The copy constructor applied to any instance
`A`, empty or not, returns a new instance `B` with `is_same(A, B)` and
`A == B` true; the heap is the same (no `T` is allocated or changed), `A`
keeps its handle and reads what it read before, and when `A` is not empty the
reference count of its cell is one higher than before.  Copy assignment
`B = A` to another instance `B` does the same, without allocating, and raises
the count by one when `B` did not already share the cell of `A`. -/
theorem copy_shares_storage (Init : Bool) (eqT : T → T → Bool) (w : World T) (A : Nat)
    (hA : A < w.data_.length) :
    (∃ wc B, shared_optional_copy w A = some (wc, B) ∧ B = w.data_.length ∧
      is_same wc A B = true ∧ op_eq Init eqT wc A B = some true ∧
      wc.heap = w.heap ∧ wc.handle A = w.handle A ∧ deref wc A = deref w A ∧
      ((w.handle A).isSome = true → use_count wc A = use_count w A + 1)) ∧
    (∀ B, B < w.data_.length → B ≠ A →
      ∃ wc, assign_copy w B A = some wc ∧
        is_same wc A B = true ∧ op_eq Init eqT wc A B = some true ∧
        wc.heap.length = w.heap.length ∧ wc.handle A = w.handle A ∧
        deref wc A = deref w A ∧
        ((w.handle A).isSome = true → w.handle B ≠ w.handle A →
          use_count wc A = use_count w A + 1)) := by
  constructor
  · have h1 : (World.mk w.heap (w.data_ ++ [w.handle A])).handle A = w.handle A :=
      handle_append_old _ _ hA
    have h2 : (World.mk w.heap (w.data_ ++ [w.handle A])).handle w.data_.length
        = w.handle A := handle_append_new _ _ _
    refine ⟨⟨w.heap, w.data_ ++ [w.handle A]⟩, w.data_.length, by simp [shared_optional_copy, hA],
      rfl, by simp [is_same, h1, h2], ?_, rfl, h1, ?_, ?_⟩
    · have : A < w.data_.length + 1 := by omega
      simp [op_eq, h1, h2, this]
    · simp only [deref, h1]; rfl
    · intro hs
      obtain ⟨q, hq⟩ := Option.isSome_iff_exists.mp hs
      rw [use_count_of_handle (h1.trans hq), use_count_of_handle hq, hq]
      simp
  · intro B hB hBA
    have h1 : (assign w B (w.handle A)).handle A = w.handle A :=
      handle_assign_ne _ _ (Ne.symm hBA)
    have h2 : (assign w B (w.handle A)).handle B = w.handle A := handle_assign_self _ hB
    have hlen : (assign w B (w.handle A)).data_.length = w.data_.length := by
      simp [assign_data]
    refine ⟨assign w B (w.handle A), by simp [assign_copy, hA, hB],
      by simp [is_same, h1, h2], ?_, heap_length_assign _ _ _, h1,
      deref_assign_ne _ _ (Ne.symm hBA), ?_⟩
    · simp [op_eq, h1, h2, hlen, hA, hB]
    · intro hs hne
      obtain ⟨q, hq⟩ := Option.isSome_iff_exists.mp hs
      rw [use_count_of_handle (h1.trans hq), use_count_of_handle hq, assign_data,
        List.count_set _ _ _ _ hB]
      have hB1 : (w.data_[B] == some q) = false := by
        rw [beq_eq_false_iff_ne]
        intro h
        apply hne
        rw [hq]
        apply handle_eq_some.mpr
        rw [List.getElem?_eq_getElem hB, h]
      simp [hB1, hq]

/-- Instance 0 holds 5 alone, instance 1 is empty. -/
theorem copy_shares_storage_witness :
    (0 : Nat) < (⟨[some 5], [some 0, none]⟩ : World Nat).data_.length ∧
    ((∃ wc B, shared_optional_copy (⟨[some 5], [some 0, none]⟩ : World Nat) 0 = some (wc, B) ∧
      B = (⟨[some 5], [some 0, none]⟩ : World Nat).data_.length ∧
      is_same wc 0 B = true ∧ op_eq false (fun a b => a == b) wc 0 B = some true ∧
      wc.heap = [some 5] ∧
      wc.handle 0 = (⟨[some 5], [some 0, none]⟩ : World Nat).handle 0 ∧
      deref wc 0 = deref (⟨[some 5], [some 0, none]⟩ : World Nat) 0 ∧
      (((⟨[some 5], [some 0, none]⟩ : World Nat).handle 0).isSome = true →
        use_count wc 0 = use_count (⟨[some 5], [some 0, none]⟩ : World Nat) 0 + 1)) ∧
    (∀ B, B < (⟨[some 5], [some 0, none]⟩ : World Nat).data_.length → B ≠ 0 →
      ∃ wc, assign_copy (⟨[some 5], [some 0, none]⟩ : World Nat) B 0 = some wc ∧
        is_same wc 0 B = true ∧ op_eq false (fun a b => a == b) wc 0 B = some true ∧
        wc.heap.length = [some 5].length ∧
        wc.handle 0 = (⟨[some 5], [some 0, none]⟩ : World Nat).handle 0 ∧
        deref wc 0 = deref (⟨[some 5], [some 0, none]⟩ : World Nat) 0 ∧
        (((⟨[some 5], [some 0, none]⟩ : World Nat).handle 0).isSome = true →
          (⟨[some 5], [some 0, none]⟩ : World Nat).handle B
            ≠ (⟨[some 5], [some 0, none]⟩ : World Nat).handle 0 →
          use_count wc 0 = use_count (⟨[some 5], [some 0, none]⟩ : World Nat) 0 + 1))) :=
  ⟨by decide, copy_shares_storage false (fun a b => a == b) ⟨[some 5], [some 0, none]⟩ 0
    (by decide)⟩


/-- C7 (lazy allocation).  In the optional instantiation the default
constructor allocates nothing and yields an empty instance `A` (`empty()`
true, `operator bool` false).  `get()` on it allocates one cell holding
a default-constructed `T` and returns a reference to it; afterwards `A` is
not empty and reads the default-constructed value. -/
theorem lazy_allocation (dflt : T) (w w0 : World T) (A : Nat) (hw : WF w = true)
    (hc : shared_optional_default false dflt w = (w0, A)) :
    w0.heap = w.heap ∧ empty w0 A = true ∧ op_bool w0 A = false ∧
    ∃ w1 p, get false dflt w0 A = some (w1, p) ∧
      w1.heap = w.heap ++ [some dflt] ∧ p = w.heap.length ∧ w1.cell p = some dflt ∧
      empty w1 A = false ∧ op_bool w1 A = true ∧ deref w1 A = some dflt := by
  have h0 : shared_optional_default false dflt w
      = (⟨w.heap, w.data_ ++ [none]⟩, w.data_.length) := by
    simp [shared_optional_default]
  rw [h0] at hc
  simp only [Prod.mk.injEq] at hc
  obtain ⟨rfl, rfl⟩ := hc
  have hh : (World.mk w.heap (w.data_ ++ [none])).handle w.data_.length = none :=
    handle_append_new _ _ _
  have hwf : WF (World.mk w.heap (w.data_ ++ [none])) = true := WF_append hw (Or.inl rfl)
  have hs : w.data_.length < (World.mk w.heap (w.data_ ++ [none])).data_.length := by simp
  have hg := get_of_empty dflt hwf hs hh
  have hh1 : (World.mk (w.heap ++ [some dflt])
      ((w.data_ ++ [none]).set w.data_.length (some w.heap.length))).handle w.data_.length
      = some w.heap.length :=
    handle_set_self (w := ⟨w.heap, w.data_ ++ [none]⟩) _ hs _
  refine ⟨rfl, by simp [empty, hh], by simp [op_bool, hh], _, _, hg, rfl, rfl,
    cell_append_new w dflt _, by simp only [empty, hh1]; rfl,
    by simp only [op_bool, hh1]; rfl, ?_⟩
  simp only [deref, hh1, Option.some_bind]
  exact cell_append_new w dflt _

/-- A world with one instance that holds 5; the default value is 0. -/
theorem lazy_allocation_witness :
    WF (⟨[some 5], [some 0]⟩ : World Nat) = true ∧
    shared_optional_default false 0 (⟨[some 5], [some 0]⟩ : World Nat)
      = (⟨[some 5], [some 0, none]⟩, 1) ∧
    ((⟨[some 5], [some 0, none]⟩ : World Nat).heap = [some 5] ∧
    empty (⟨[some 5], [some 0, none]⟩ : World Nat) 1 = true ∧
    op_bool (⟨[some 5], [some 0, none]⟩ : World Nat) 1 = false ∧
    ∃ w1 p, get false 0 (⟨[some 5], [some 0, none]⟩ : World Nat) 1 = some (w1, p) ∧
      w1.heap = [some 5] ++ [some 0] ∧ p = [some 5].length ∧ w1.cell p = some 0 ∧
      empty w1 1 = false ∧ op_bool w1 1 = true ∧ deref w1 1 = some 0) :=
  ⟨rfl, rfl, lazy_allocation 0 ⟨[some 5], [some 0]⟩ ⟨[some 5], [some 0, none]⟩ 1 rfl rfl⟩


/-- C8 (`clear()` in the optional instantiation).  For every instance `A`,
whatever its state, `clear()` returns and leaves `A` empty; every
other instance (so every instance that shared the storage of `A`) keeps its
handle and reads the value it read before; and a following `A.get()` returns
a reference to a cell holding a default-constructed `T`, which `A` then
reads. -/
theorem clear_optional (dflt : T) (w : World T) (A : Nat) (hw : WF w = true)
    (hA : A < w.data_.length) :
    ∃ w1, clear false dflt w A = some w1 ∧ empty w1 A = true ∧
      (∀ D, D ≠ A → w1.handle D = w.handle D ∧ deref w1 D = deref w D) ∧
      ∃ w2 p, get false dflt w1 A = some (w2, p) ∧ w2.cell p = some dflt ∧
        deref w2 A = some dflt := by
  have hh : (assign w A none).handle A = none := handle_assign_self _ hA
  have hw1 : WF (assign w A none) = true := WF_assign hw (fun q hq => by cases hq)
  have hA1 : A < (assign w A none).data_.length := by simpa [assign_data] using hA
  refine ⟨assign w A none, clear_of_optional dflt hA, by simp [empty, hh], ?_, ?_⟩
  · intro D hD
    exact ⟨handle_assign_ne _ _ hD, deref_assign_ne _ _ hD⟩
  · obtain ⟨w2, p, hg, -, -, hp, -, hc, -, -⟩ := get_spec false dflt hw1 hA1 (Or.inl rfl)
    have hd : deref (assign w A none) A = none := by simp [deref, hh]
    rw [hd] at hc
    refine ⟨w2, p, hg, hc, ?_⟩
    simp only [deref, hp, Option.some_bind]
    exact hc

/-- Instances 0 and 1 share a cell holding 5; the default value is 0. -/
theorem clear_optional_witness :
    WF (⟨[some 5], [some 0, some 0]⟩ : World Nat) = true ∧
    (1 : Nat) < (⟨[some 5], [some 0, some 0]⟩ : World Nat).data_.length ∧
    ∃ w1, clear false 0 (⟨[some 5], [some 0, some 0]⟩ : World Nat) 1 = some w1 ∧
      empty w1 1 = true ∧
      (∀ D, D ≠ 1 →
        w1.handle D = (⟨[some 5], [some 0, some 0]⟩ : World Nat).handle D ∧
        deref w1 D = deref (⟨[some 5], [some 0, some 0]⟩ : World Nat) D) ∧
      ∃ w2 p, get false 0 w1 1 = some (w2, p) ∧ w2.cell p = some 0 ∧
        deref w2 1 = some 0 :=
  ⟨rfl, by decide, clear_optional 0 ⟨[some 5], [some 0, some 0]⟩ 1 rfl (by decide)⟩

/-- C9 (`clear()` in the always-present instantiation).  For an instance `C`
that refers to the cell `pc`, `clear()` returns and `C` is then not empty and
reads a default-constructed `T`.  If `C` was the sole owner it still refers to
`pc` and no cell was allocated.  If the cell was shared, `C` refers to a newly
allocated cell, and for every other instance `D` that shared `pc`,
`is_same(C, D)` is false and `D` still refers to `pc` and reads what it read
before. -/
theorem clear_always_present (dflt : T) (w : World T) (C pc : Nat) (hw : WF w = true)
    (hh : w.handle C = some pc) :
    ∃ w1, clear true dflt w C = some w1 ∧ empty w1 C = false ∧
      deref w1 C = some dflt ∧
      (use_count w C = 1 → w1.handle C = some pc ∧ w1.heap.length = w.heap.length) ∧
      (1 < use_count w C →
        w1.handle C = some w.heap.length ∧ w1.heap.length = w.heap.length + 1 ∧
        ∀ D, D ≠ C → w.handle D = some pc →
          is_same w1 C D = false ∧ w1.handle D = some pc ∧ deref w1 D = deref w D) := by
  obtain ⟨x, hx⟩ := (WF_iff w).mp hw C pc hh
  have hC := handle_lt hh
  have hlt := cell_lt hx
  by_cases hu : use_count w C ≤ 1
  · refine ⟨store w pc dflt, clear_of_sole dflt hh hu hx, ?_, ?_, ?_, ?_⟩
    · simp [empty, handle_store, hh]
    · simp [deref, handle_store, hh, cell_store_self dflt hlt]
    · intro _
      exact ⟨hh, by simp [store]⟩
    · intro h; omega
  · have hu1 : 1 < use_count w C := by omega
    have h1 : (World.mk (w.heap ++ [some dflt])
        (w.data_.set C (some w.heap.length))).handle C = some w.heap.length :=
      handle_set_self _ hC _
    refine ⟨_, clear_of_shared dflt hh hu1 hw, ?_, ?_, ?_, ?_⟩
    · simp only [empty, h1]; rfl
    · simp only [deref, h1, Option.some_bind]
      exact cell_append_new w dflt _
    · intro h; omega
    · intro _
      refine ⟨h1, by simp, ?_⟩
      intro D hD hDh
      have h2 : (World.mk (w.heap ++ [some dflt])
          (w.data_.set C (some w.heap.length))).handle D = some pc := by
        rw [handle_set_ne _ hD]; exact hDh
      refine ⟨?_, h2, ?_⟩
      · simp only [is_same, h1, h2]
        simp only [beq_eq_false_iff_ne, ne_eq, Option.some.injEq]
        omega
      · simp only [deref, h2, hDh, Option.some_bind]
        rw [hx]
        exact cell_append_old dflt _ hx

/-- Instance 0 owns cell 1 alone; instances 1 and 2 share cell 0. -/
theorem clear_always_present_witness :
    WF (⟨[some 5, some 7], [some 1, some 0, some 0]⟩ : World Nat) = true ∧
    (⟨[some 5, some 7], [some 1, some 0, some 0]⟩ : World Nat).handle 2 = some 0 ∧
    ∃ w1, clear true 0 (⟨[some 5, some 7], [some 1, some 0, some 0]⟩ : World Nat) 2 = some w1 ∧
      empty w1 2 = false ∧ deref w1 2 = some 0 ∧
      (use_count (⟨[some 5, some 7], [some 1, some 0, some 0]⟩ : World Nat) 2 = 1 →
        w1.handle 2 = some 0 ∧ w1.heap.length = [some 5, some 7].length) ∧
      (1 < use_count (⟨[some 5, some 7], [some 1, some 0, some 0]⟩ : World Nat) 2 →
        w1.handle 2 = some [some 5, some 7].length ∧
        w1.heap.length = [some 5, some 7].length + 1 ∧
        ∀ D, D ≠ 2 →
          (⟨[some 5, some 7], [some 1, some 0, some 0]⟩ : World Nat).handle D = some 0 →
          is_same w1 2 D = false ∧ w1.handle D = some 0 ∧
          deref w1 D = deref (⟨[some 5, some 7], [some 1, some 0, some 0]⟩ : World Nat) D) :=
  ⟨rfl, rfl, clear_always_present 0 ⟨[some 5, some 7], [some 1, some 0, some 0]⟩ 2 0 rfl rfl⟩


/-- C10 (equality between instances).  In the optional instantiation, for any
two instances `a` and `b` in any states, `a == b` returns, and it is true
exactly when `a` and `b` refer to the same storage (both empty included) or
both are non-empty and `T`'s `==` holds between their values.  When exactly
one of them is empty the result is false, and when they share storage the
result is true whatever `T`'s `==` is. -/
theorem op_eq_characterised (eqT : T → T → Bool) (w : World T) (a b : Nat)
    (hw : WF w = true) (ha : a < w.data_.length) (hb : b < w.data_.length) :
    ∃ r, op_eq false eqT w a b = some r ∧
      (r = true ↔ (w.handle a = w.handle b ∨
        ∃ x y, deref w a = some x ∧ deref w b = some y ∧ eqT x y = true)) ∧
      (empty w a ≠ empty w b → r = false) ∧
      (is_same w a b = true → ∀ eqT2 : T → T → Bool, op_eq false eqT2 w a b = some true) := by
  have hsame : is_same w a b = true → ∀ eqT2 : T → T → Bool,
      op_eq false eqT2 w a b = some true := by
    intro hs eqT2
    have : w.handle a = w.handle b := by simpa [is_same] using hs
    simp [op_eq, ha, hb, this]
  by_cases hab : w.handle a = w.handle b
  · refine ⟨true, by simp [op_eq, ha, hb, hab], by simp [hab], ?_, hsame⟩
    intro h
    simp [empty, hab] at h
  · cases hpa : w.handle a with
    | none =>
      have hpb : (w.handle b).isSome = true := by
        cases h : w.handle b with
        | none => rw [hpa, h] at hab; exact absurd rfl hab
        | some q => rfl
      have hab2 : ¬ none = w.handle b := by rw [hpa] at hab; exact hab
      refine ⟨false, ?_, ?_, fun _ => rfl, hsame⟩
      · simp [op_eq, ha, hb, hab2, hpa]
      · have hd : deref w a = none := by simp [deref, hpa]
        simp [hd, hab2]
    | some pa =>
      cases hpb : w.handle b with
      | none =>
        refine ⟨false, ?_, ?_, fun _ => rfl, hsame⟩
        · simp [op_eq, ha, hb, hpa, hpb]
        · have hd : deref w b = none := by simp [deref, hpb]
          simp [hd, hpa, hpb]
      | some pb =>
        obtain ⟨x, hx⟩ := (WF_iff w).mp hw a pa hpa
        obtain ⟨y, hy⟩ := (WF_iff w).mp hw b pb hpb
        have hda : deref w a = some x := by simp [deref, hpa, hx]
        have hdb : deref w b = some y := by simp [deref, hpb, hy]
        rw [hpa, hpb] at hab
        refine ⟨eqT x y, ?_, ?_, ?_, hsame⟩
        · simp [op_eq, ha, hb, hpa, hpb, hab, hda, hdb]
        · simp [hda, hdb, hpa, hpb, hab]
        · intro h
          simp [empty, hpa, hpb] at h

/-- Instances 0 and 1 hold equal values in different cells, instance 2 is
empty. -/
theorem op_eq_characterised_witness :
    WF (⟨[some 5, some 5], [some 0, some 1, none]⟩ : World Nat) = true ∧
    (0 : Nat) < (⟨[some 5, some 5], [some 0, some 1, none]⟩ : World Nat).data_.length ∧
    (1 : Nat) < (⟨[some 5, some 5], [some 0, some 1, none]⟩ : World Nat).data_.length ∧
    ∃ r, op_eq false (fun x y => x == y)
          (⟨[some 5, some 5], [some 0, some 1, none]⟩ : World Nat) 0 1 = some r ∧
      (r = true ↔
        ((⟨[some 5, some 5], [some 0, some 1, none]⟩ : World Nat).handle 0
            = (⟨[some 5, some 5], [some 0, some 1, none]⟩ : World Nat).handle 1 ∨
        ∃ x y, deref (⟨[some 5, some 5], [some 0, some 1, none]⟩ : World Nat) 0 = some x ∧
          deref (⟨[some 5, some 5], [some 0, some 1, none]⟩ : World Nat) 1 = some y ∧
          (fun x y => x == y) x y = true)) ∧
      (empty (⟨[some 5, some 5], [some 0, some 1, none]⟩ : World Nat) 0
          ≠ empty (⟨[some 5, some 5], [some 0, some 1, none]⟩ : World Nat) 1 → r = false) ∧
      (is_same (⟨[some 5, some 5], [some 0, some 1, none]⟩ : World Nat) 0 1 = true →
        ∀ eqT2 : Nat → Nat → Bool,
          op_eq false eqT2 (⟨[some 5, some 5], [some 0, some 1, none]⟩ : World Nat) 0 1
            = some true) :=
  ⟨rfl, by decide, by decide,
    op_eq_characterised (fun x y => x == y) ⟨[some 5, some 5], [some 0, some 1, none]⟩ 0 1
      rfl (by decide) (by decide)⟩


/-! ## Comparison operators, case by case -/

theorem deref_eq_some {w : World T} {i : Nat} {x : T} :
    deref w i = some x ↔ ∃ p, w.handle i = some p ∧ w.cell p = some x := by
  unfold deref
  cases h : w.handle i with
  | none => simp
  | some p => simp

theorem op_eq_of_same {w : World T} {a b : Nat} (Init : Bool) (eqT : T → T → Bool)
    (ha : a < w.data_.length) (hb : b < w.data_.length) (h : w.handle a = w.handle b) :
    op_eq Init eqT w a b = some true := by
  simp [op_eq, ha, hb, h]

theorem op_eq_of_one_empty {w : World T} {a b : Nat} (eqT : T → T → Bool)
    (ha : a < w.data_.length) (hb : b < w.data_.length) (hne : w.handle a ≠ w.handle b)
    (h : w.handle a = none ∨ w.handle b = none) :
    op_eq false eqT w a b = some false := by
  unfold op_eq
  rw [if_pos ⟨ha, hb⟩, if_neg hne]
  rcases h with h | h <;> simp [h]

theorem op_eq_of_values {w : World T} {a b : Nat} {x y : T} (Init : Bool)
    (eqT : T → T → Bool) (hne : w.handle a ≠ w.handle b)
    (hx : deref w a = some x) (hy : deref w b = some y) :
    op_eq Init eqT w a b = some (eqT x y) := by
  obtain ⟨pa, hpa, -⟩ := deref_eq_some.mp hx
  obtain ⟨pb, hpb, -⟩ := deref_eq_some.mp hy
  have ha := handle_lt hpa
  have hb := handle_lt hpb
  unfold op_eq
  rw [if_pos ⟨ha, hb⟩, if_neg hne]
  simp [hx, hy, hpa, hpb]

theorem op_lt_of_same {w : World T} {a b : Nat} (Init : Bool) (ltT : T → T → Bool)
    (ha : a < w.data_.length) (hb : b < w.data_.length) (h : w.handle a = w.handle b) :
    op_lt Init ltT w a b = some false := by
  simp [op_lt, ha, hb, h]

theorem op_lt_of_empty_left {w : World T} {a b q : Nat} (ltT : T → T → Bool)
    (ha : a < w.data_.length) (h : w.handle a = none) (hq : w.handle b = some q) :
    op_lt false ltT w a b = some true := by
  simp [op_lt, ha, handle_lt hq, h, hq]

theorem op_lt_of_empty_right {w : World T} {a b p : Nat} (ltT : T → T → Bool)
    (hb : b < w.data_.length) (hp : w.handle a = some p) (h : w.handle b = none) :
    op_lt false ltT w a b = some false := by
  simp [op_lt, hb, handle_lt hp, h, hp]

theorem op_lt_of_values {w : World T} {a b : Nat} {x y : T} (Init : Bool)
    (ltT : T → T → Bool) (hne : w.handle a ≠ w.handle b)
    (hx : deref w a = some x) (hy : deref w b = some y) :
    op_lt Init ltT w a b = some (ltT x y) := by
  obtain ⟨pa, hpa, -⟩ := deref_eq_some.mp hx
  obtain ⟨pb, hpb, -⟩ := deref_eq_some.mp hy
  have ha := handle_lt hpa
  have hb := handle_lt hpb
  unfold op_lt
  rw [if_pos ⟨ha, hb⟩, if_neg hne]
  simp [hx, hy, hpa, hpb]

/-- In a well-formed world a non-empty instance can be read. -/
theorem deref_of_WF {w : World T} (hw : WF w = true) {i p : Nat} (h : w.handle i = some p) :
    ∃ x, deref w i = some x := by
  obtain ⟨x, hx⟩ := (WF_iff w).mp hw i p h
  exact ⟨x, deref_eq_some.mpr ⟨p, h, hx⟩⟩

/-- The from-value constructor, spelled out. -/
theorem shared_optional_value_eq (w : World T) (v : T) :
    shared_optional_value w v
      = (⟨w.heap ++ [some v], w.data_ ++ [some w.heap.length]⟩, w.data_.length) := rfl

/-- C11 (equality is deep, not identity-based).  Let `a` and `b` be made one
after the other by the from-value constructor, from values `x` and `y` with
`x == y`.  Each construction allocates one cell of its own and yields a
non-empty instance, in either instantiation; `a == b` is true and
`is_same(a, b)` is false. -/
theorem equality_is_deep (Init : Bool) (eqT : T → T → Bool) (w w1 w2 : World T)
    (a b : Nat) (x y : T) (hxy : eqT x y = true)
    (hca : shared_optional_value w x = (w1, a))
    (hcb : shared_optional_value w1 y = (w2, b)) :
    op_eq Init eqT w2 a b = some true ∧ is_same w2 a b = false ∧
      w1.heap.length = w.heap.length + 1 ∧ w2.heap.length = w1.heap.length + 1 ∧
      empty w1 a = false ∧ empty w2 a = false ∧ empty w2 b = false ∧
      deref w2 a = some x ∧ deref w2 b = some y := by
  rw [shared_optional_value_eq] at hca
  simp only [Prod.mk.injEq] at hca
  obtain ⟨rfl, rfl⟩ := hca
  rw [shared_optional_value_eq] at hcb
  simp only [Prod.mk.injEq] at hcb
  obtain ⟨rfl, rfl⟩ := hcb
  have h1 : (World.mk (w.heap ++ [some x]) (w.data_ ++ [some w.heap.length])).handle
      w.data_.length = some w.heap.length := handle_append_new _ _ _
  have h2a : (World.mk (w.heap ++ [some x] ++ [some y])
      (w.data_ ++ [some w.heap.length] ++ [some (w.heap ++ [some x]).length])).handle
      w.data_.length = some w.heap.length := by
    rw [handle_append_old _ _ (by simp)]
    exact handle_append_new _ _ _
  have h2b : (World.mk (w.heap ++ [some x] ++ [some y])
      (w.data_ ++ [some w.heap.length] ++ [some (w.heap ++ [some x]).length])).handle
      (w.data_ ++ [some w.heap.length]).length = some (w.heap ++ [some x]).length :=
    handle_append_new _ _ _
  have hca : (World.mk (w.heap ++ [some x] ++ [some y])
      (w.data_ ++ [some w.heap.length] ++ [some (w.heap ++ [some x]).length])).cell
      w.heap.length = some x :=
    cell_append_old (w := ⟨w.heap ++ [some x], w.data_⟩) y _ (cell_append_new w x _)
  have hcb : (World.mk (w.heap ++ [some x] ++ [some y])
      (w.data_ ++ [some w.heap.length] ++ [some (w.heap ++ [some x]).length])).cell
      (w.heap ++ [some x]).length = some y :=
    cell_append_new (⟨w.heap ++ [some x], w.data_⟩ : World T) y _
  have hda := deref_eq_some.mpr ⟨_, h2a, hca⟩
  have hdb := deref_eq_some.mpr ⟨_, h2b, hcb⟩
  have hne : (World.mk (w.heap ++ [some x] ++ [some y])
      (w.data_ ++ [some w.heap.length] ++ [some (w.heap ++ [some x]).length])).handle
      w.data_.length ≠ (World.mk (w.heap ++ [some x] ++ [some y])
      (w.data_ ++ [some w.heap.length] ++ [some (w.heap ++ [some x]).length])).handle
      (w.data_ ++ [some w.heap.length]).length := by
    rw [h2a, h2b]; simp
  refine ⟨?_, ?_, by simp, by simp, by simp only [empty, h1]; rfl,
    by simp only [empty, h2a]; rfl, by simp only [empty, h2b]; rfl, hda, hdb⟩
  · rw [op_eq_of_values Init eqT hne hda hdb, hxy]
  · simp only [is_same, h2a, h2b]
    simp

/-- Two instances made from the value 5 in a world that has none. -/
theorem equality_is_deep_witness :
    (fun x y : Nat => x == y) 5 5 = true ∧
    shared_optional_value (⟨[], []⟩ : World Nat) 5 = (⟨[some 5], [some 0]⟩, 0) ∧
    shared_optional_value (⟨[some 5], [some 0]⟩ : World Nat) 5
      = (⟨[some 5, some 5], [some 0, some 1]⟩, 1) ∧
    (op_eq true (fun x y : Nat => x == y) ⟨[some 5, some 5], [some 0, some 1]⟩ 0 1
        = some true ∧
      is_same (⟨[some 5, some 5], [some 0, some 1]⟩ : World Nat) 0 1 = false ∧
      (⟨[some 5], [some 0]⟩ : World Nat).heap.length
        = (⟨[], []⟩ : World Nat).heap.length + 1 ∧
      (⟨[some 5, some 5], [some 0, some 1]⟩ : World Nat).heap.length
        = (⟨[some 5], [some 0]⟩ : World Nat).heap.length + 1 ∧
      empty (⟨[some 5], [some 0]⟩ : World Nat) 0 = false ∧
      empty (⟨[some 5, some 5], [some 0, some 1]⟩ : World Nat) 0 = false ∧
      empty (⟨[some 5, some 5], [some 0, some 1]⟩ : World Nat) 1 = false ∧
      deref (⟨[some 5, some 5], [some 0, some 1]⟩ : World Nat) 0 = some 5 ∧
      deref (⟨[some 5, some 5], [some 0, some 1]⟩ : World Nat) 1 = some 5) :=
  ⟨rfl, rfl, rfl,
    equality_is_deep true (fun x y : Nat => x == y) ⟨[], []⟩ ⟨[some 5], [some 0]⟩
      ⟨[some 5, some 5], [some 0, some 1]⟩ 0 1 5 5 rfl rfl rfl⟩

/-- When `a < b` is true, either `a` is empty and `b` is not (optional
instantiation), or both can be read and `T`'s `<` holds between the values. -/
theorem op_lt_true_inv {Init : Bool} {ltT : T → T → Bool} {w : World T} {a b : Nat}
    (h : op_lt Init ltT w a b = some true) :
    a < w.data_.length ∧ b < w.data_.length ∧ w.handle a ≠ w.handle b ∧
      ((Init = false ∧ w.handle a = none ∧ ∃ q, w.handle b = some q) ∨
        ∃ x y, deref w a = some x ∧ deref w b = some y ∧ ltT x y = true) := by
  unfold op_lt at h
  split at h
  · next hlt =>
    split at h
    · simp at h
    · next hne =>
      refine ⟨hlt.1, hlt.2, hne, ?_⟩
      split at h
      · next h1 =>
        left
        simp only [Bool.and_eq_true, Bool.not_eq_eq_eq_not, Bool.not_true] at h1
        simp only [Option.some.injEq] at h
        refine ⟨h1.1, ?_, Option.isSome_iff_exists.mp h⟩
        cases hq : w.handle a with
        | none => rfl
        | some q => simp [hq] at h1
      · split at h
        · simp at h
        · right
          cases hx : deref w a with
          | none => simp [hx] at h
          | some x =>
            cases hy : deref w b with
            | none => simp [hx, hy] at h
            | some y =>
              simp only [hx, hy, Option.some_bind, Option.map_some', Option.some.injEq] at h
              exact ⟨x, y, rfl, rfl, h⟩
  · cases h

/-- When `a == b` is true, either the handles are equal, or both can be read
and `T`'s `==` holds between the values. -/
theorem op_eq_true_inv {Init : Bool} {eqT : T → T → Bool} {w : World T} {a b : Nat}
    (h : op_eq Init eqT w a b = some true) :
    a < w.data_.length ∧ b < w.data_.length ∧
      (w.handle a = w.handle b ∨
        (w.handle a ≠ w.handle b ∧
          ∃ x y, deref w a = some x ∧ deref w b = some y ∧ eqT x y = true)) := by
  unfold op_eq at h
  split at h
  · next hlt =>
    refine ⟨hlt.1, hlt.2, ?_⟩
    split at h
    · next heq => exact Or.inl heq
    · next hne =>
      right
      refine ⟨hne, ?_⟩
      split at h
      · simp at h
      · cases hx : deref w a with
        | none => simp [hx] at h
        | some x =>
          cases hy : deref w b with
          | none => simp [hx, hy] at h
          | some y =>
            simp only [hx, hy, Option.some_bind, Option.map_some', Option.some.injEq] at h
            exact ⟨x, y, rfl, rfl, h⟩
  · cases h

theorem handle_of_deref {w : World T} {i : Nat} {x : T} (h : deref w i = some x) :
    ∃ p, w.handle i = some p := by
  obtain ⟨p, hp, -⟩ := deref_eq_some.mp h
  exact ⟨p, hp⟩

/-- C12 (ordering between instances).  In the optional instantiation, for any
two instances in any states, `a < b` returns.  It is false when `a` and `b`
refer to the same storage (both empty included).  Otherwise: if `a` is empty
it is true and `b` is not empty; if `a` is not empty and `b` is empty it is
false; and if neither is empty both can be read and the result is `T`'s `<`
applied to their values. -/
theorem op_lt_characterised (ltT : T → T → Bool) (w : World T) (a b : Nat)
    (hw : WF w = true) (ha : a < w.data_.length) (hb : b < w.data_.length) :
    ∃ r, op_lt false ltT w a b = some r ∧
      (is_same w a b = true → r = false) ∧
      (is_same w a b = false → empty w a = true → r = true ∧ empty w b = false) ∧
      (empty w a = false → empty w b = true → r = false) ∧
      (is_same w a b = false → empty w a = false → empty w b = false →
        ∃ x y, deref w a = some x ∧ deref w b = some y ∧ r = ltT x y) := by
  by_cases hab : w.handle a = w.handle b
  · refine ⟨false, op_lt_of_same false ltT ha hb hab, fun _ => rfl, ?_, fun _ _ => rfl, ?_⟩
    · intro h; simp [is_same, hab] at h
    · intro h; simp [is_same, hab] at h
  · have hns : is_same w a b = false := by simpa [is_same] using hab
    cases hpa : w.handle a with
    | none =>
      cases hpb : w.handle b with
      | none => rw [hpa, hpb] at hab; exact absurd rfl hab
      | some pb =>
        refine ⟨true, op_lt_of_empty_left ltT ha hpa hpb, ?_, ?_, ?_, ?_⟩
        · intro h; rw [hns] at h; cases h
        · intro _ _; exact ⟨rfl, by simp [empty, hpb]⟩
        · intro h; simp [empty, hpa] at h
        · intro _ h; simp [empty, hpa] at h
    | some pa =>
      cases hpb : w.handle b with
      | none =>
        refine ⟨false, op_lt_of_empty_right ltT hb hpa hpb, fun _ => rfl, ?_, fun _ _ => rfl, ?_⟩
        · intro _ h; simp [empty, hpa] at h
        · intro _ _ h; simp [empty, hpb] at h
      | some pb =>
        obtain ⟨x, hx⟩ := deref_of_WF hw hpa
        obtain ⟨y, hy⟩ := deref_of_WF hw hpb
        refine ⟨ltT x y, op_lt_of_values false ltT hab hx hy, ?_, ?_, ?_, ?_⟩
        · intro h; rw [hns] at h; cases h
        · intro _ h; simp [empty, hpa] at h
        · intro _ h; simp [empty, hpb] at h
        · intro _ _ _; exact ⟨x, y, hx, hy, rfl⟩

/-- Instance 0 holds 5, instance 1 holds 7, instance 2 is empty. -/
theorem op_lt_characterised_witness :
    WF (⟨[some 5, some 7], [some 0, some 1, none]⟩ : World Nat) = true ∧
    (0 : Nat) < (⟨[some 5, some 7], [some 0, some 1, none]⟩ : World Nat).data_.length ∧
    (1 : Nat) < (⟨[some 5, some 7], [some 0, some 1, none]⟩ : World Nat).data_.length ∧
    ∃ r, op_lt false (fun x y => decide (x < y))
          (⟨[some 5, some 7], [some 0, some 1, none]⟩ : World Nat) 0 1 = some r ∧
      (is_same (⟨[some 5, some 7], [some 0, some 1, none]⟩ : World Nat) 0 1 = true →
        r = false) ∧
      (is_same (⟨[some 5, some 7], [some 0, some 1, none]⟩ : World Nat) 0 1 = false →
        empty (⟨[some 5, some 7], [some 0, some 1, none]⟩ : World Nat) 0 = true →
        r = true ∧ empty (⟨[some 5, some 7], [some 0, some 1, none]⟩ : World Nat) 1 = false) ∧
      (empty (⟨[some 5, some 7], [some 0, some 1, none]⟩ : World Nat) 0 = false →
        empty (⟨[some 5, some 7], [some 0, some 1, none]⟩ : World Nat) 1 = true →
        r = false) ∧
      (is_same (⟨[some 5, some 7], [some 0, some 1, none]⟩ : World Nat) 0 1 = false →
        empty (⟨[some 5, some 7], [some 0, some 1, none]⟩ : World Nat) 0 = false →
        empty (⟨[some 5, some 7], [some 0, some 1, none]⟩ : World Nat) 1 = false →
        ∃ x y, deref (⟨[some 5, some 7], [some 0, some 1, none]⟩ : World Nat) 0 = some x ∧
          deref (⟨[some 5, some 7], [some 0, some 1, none]⟩ : World Nat) 1 = some y ∧
          r = (fun x y => decide (x < y)) x y) :=
  ⟨rfl, by decide, by decide,
    op_lt_characterised (fun x y => decide (x < y))
      ⟨[some 5, some 7], [some 0, some 1, none]⟩ 0 1 rfl (by decide) (by decide)⟩


/-- In the optional instantiation of a well-formed world both comparison
operators between instances return. -/
theorem op_lt_total (ltT : T → T → Bool) {w : World T} {a b : Nat} (hw : WF w = true)
    (ha : a < w.data_.length) (hb : b < w.data_.length) :
    ∃ r, op_lt false ltT w a b = some r := by
  by_cases hab : w.handle a = w.handle b
  · exact ⟨false, op_lt_of_same false ltT ha hb hab⟩
  · cases hpa : w.handle a with
    | none =>
      cases hpb : w.handle b with
      | none => rw [hpa, hpb] at hab; exact absurd rfl hab
      | some pb => exact ⟨true, op_lt_of_empty_left ltT ha hpa hpb⟩
    | some pa =>
      cases hpb : w.handle b with
      | none => exact ⟨false, op_lt_of_empty_right ltT hb hpa hpb⟩
      | some pb =>
        obtain ⟨x, hx⟩ := deref_of_WF hw hpa
        obtain ⟨y, hy⟩ := deref_of_WF hw hpb
        exact ⟨ltT x y, op_lt_of_values false ltT hab hx hy⟩

theorem op_eq_total (eqT : T → T → Bool) {w : World T} {a b : Nat} (hw : WF w = true)
    (ha : a < w.data_.length) (hb : b < w.data_.length) :
    ∃ r, op_eq false eqT w a b = some r := by
  by_cases hab : w.handle a = w.handle b
  · exact ⟨true, op_eq_of_same false eqT ha hb hab⟩
  · cases hpa : w.handle a with
    | none => exact ⟨false, op_eq_of_one_empty eqT ha hb hab (Or.inl hpa)⟩
    | some pa =>
      cases hpb : w.handle b with
      | none => exact ⟨false, op_eq_of_one_empty eqT ha hb hab (Or.inr hpb)⟩
      | some pb =>
        obtain ⟨x, hx⟩ := deref_of_WF hw hpa
        obtain ⟨y, hy⟩ := deref_of_WF hw hpb
        exact ⟨eqT x y, op_eq_of_values false eqT hab hx hy⟩

/-- C13 (`operator<` is irreflexive and asymmetric).  For every instance `a`,
`a < a` returns false whatever `T`'s `<` is.  If `T`'s `<` is asymmetric then
`a < b` and `b < a` are never both true, for instances in any states and in
either instantiation; in the optional instantiation both comparisons return
and at least one of them is false. -/
theorem op_lt_irreflexive_asymmetric (Init : Bool) (ltT : T → T → Bool) (w : World T)
    (a b : Nat) (hasym : ∀ x y, ltT x y = true → ltT y x = false) :
    (∀ ltT2 : T → T → Bool, a < w.data_.length → op_lt Init ltT2 w a a = some false) ∧
    ¬ (op_lt Init ltT w a b = some true ∧ op_lt Init ltT w b a = some true) ∧
    (WF w = true → a < w.data_.length → b < w.data_.length →
      ∃ r1 r2, op_lt false ltT w a b = some r1 ∧ op_lt false ltT w b a = some r2 ∧
        (r1 = false ∨ r2 = false)) := by
  have hnot : ∀ I : Bool,
      ¬ (op_lt I ltT w a b = some true ∧ op_lt I ltT w b a = some true) := by
    rintro I ⟨h1, h2⟩
    obtain ⟨-, -, -, c1⟩ := op_lt_true_inv h1
    obtain ⟨-, -, -, c2⟩ := op_lt_true_inv h2
    rcases c1 with ⟨-, ha, q, hq⟩ | ⟨x, y, hx, hy, hxy⟩
    · rcases c2 with ⟨-, hb, -⟩ | ⟨y, x, -, hx, -⟩
      · rw [hb] at hq; cases hq
      · obtain ⟨p, hp⟩ := handle_of_deref hx
        rw [ha] at hp; cases hp
    · rcases c2 with ⟨-, hb, -⟩ | ⟨y2, x2, hy2, hx2, hyx⟩
      · obtain ⟨p, hp⟩ := handle_of_deref hy
        rw [hb] at hp; cases hp
      · rw [hx] at hx2; rw [hy] at hy2
        cases hx2; cases hy2
        rw [hasym x y hxy] at hyx
        cases hyx
  refine ⟨fun ltT2 ha => op_lt_of_same Init ltT2 ha ha rfl, hnot Init, ?_⟩
  intro hw ha hb
  obtain ⟨r1, h1⟩ := op_lt_total ltT hw ha hb
  obtain ⟨r2, h2⟩ := op_lt_total ltT hw hb ha
  refine ⟨r1, r2, h1, h2, ?_⟩
  cases r1 with
  | false => exact Or.inl rfl
  | true =>
    cases r2 with
    | false => exact Or.inr rfl
    | true => exact absurd ⟨h1, h2⟩ (hnot false)

/-- Instance 0 holds 5, instance 1 holds 7, compared with `<` on `Nat`. -/
theorem op_lt_irreflexive_asymmetric_witness :
    (∀ x y : Nat, (fun x y => decide (x < y)) x y = true →
      (fun x y => decide (x < y)) y x = false) ∧
    ((∀ ltT2 : Nat → Nat → Bool,
        0 < (⟨[some 5, some 7], [some 0, some 1, none]⟩ : World Nat).data_.length →
        op_lt false ltT2 ⟨[some 5, some 7], [some 0, some 1, none]⟩ 0 0 = some false) ∧
    ¬ (op_lt false (fun x y => decide (x < y))
          (⟨[some 5, some 7], [some 0, some 1, none]⟩ : World Nat) 0 1 = some true ∧
        op_lt false (fun x y => decide (x < y))
          (⟨[some 5, some 7], [some 0, some 1, none]⟩ : World Nat) 1 0 = some true) ∧
    (WF (⟨[some 5, some 7], [some 0, some 1, none]⟩ : World Nat) = true →
      0 < (⟨[some 5, some 7], [some 0, some 1, none]⟩ : World Nat).data_.length →
      1 < (⟨[some 5, some 7], [some 0, some 1, none]⟩ : World Nat).data_.length →
      ∃ r1 r2, op_lt false (fun x y => decide (x < y))
            (⟨[some 5, some 7], [some 0, some 1, none]⟩ : World Nat) 0 1 = some r1 ∧
        op_lt false (fun x y => decide (x < y))
            (⟨[some 5, some 7], [some 0, some 1, none]⟩ : World Nat) 1 0 = some r2 ∧
        (r1 = false ∨ r2 = false))) :=
  ⟨fun x y h => by simp at h ⊢; omega,
    op_lt_irreflexive_asymmetric false (fun x y => decide (x < y))
      ⟨[some 5, some 7], [some 0, some 1, none]⟩ 0 1 (fun x y h => by simp at h ⊢; omega)⟩


/-- C14 (the ordering is total and consistent with equality).  If for all
values exactly one of `x < y`, `x == y`, `y < x` holds, then in the optional
instantiation, for any two instances in any states, the three comparisons
`a < b`, `a == b` and `b < a` return and exactly one of them is true. -/
theorem ordering_trichotomy (eqT ltT : T → T → Bool) (w : World T) (a b : Nat)
    (htri : ∀ x y,
      (ltT x y = true ∧ eqT x y = false ∧ ltT y x = false) ∨
      (ltT x y = false ∧ eqT x y = true ∧ ltT y x = false) ∨
      (ltT x y = false ∧ eqT x y = false ∧ ltT y x = true))
    (hw : WF w = true) (ha : a < w.data_.length) (hb : b < w.data_.length) :
    ∃ l e g, op_lt false ltT w a b = some l ∧ op_eq false eqT w a b = some e ∧
      op_lt false ltT w b a = some g ∧
      ((l = true ∧ e = false ∧ g = false) ∨
       (l = false ∧ e = true ∧ g = false) ∨
       (l = false ∧ e = false ∧ g = true)) := by
  by_cases hab : w.handle a = w.handle b
  · exact ⟨false, true, false, op_lt_of_same false ltT ha hb hab,
      op_eq_of_same false eqT ha hb hab, op_lt_of_same false ltT hb ha hab.symm,
      Or.inr (Or.inl ⟨rfl, rfl, rfl⟩)⟩
  · have hba : w.handle b ≠ w.handle a := fun h => hab h.symm
    cases hpa : w.handle a with
    | none =>
      cases hpb : w.handle b with
      | none => rw [hpa, hpb] at hab; exact absurd rfl hab
      | some pb =>
        exact ⟨true, false, false, op_lt_of_empty_left ltT ha hpa hpb,
          op_eq_of_one_empty eqT ha hb hab (Or.inl hpa),
          op_lt_of_empty_right ltT ha hpb hpa, Or.inl ⟨rfl, rfl, rfl⟩⟩
    | some pa =>
      cases hpb : w.handle b with
      | none =>
        exact ⟨false, false, true, op_lt_of_empty_right ltT hb hpa hpb,
          op_eq_of_one_empty eqT ha hb hab (Or.inr hpb),
          op_lt_of_empty_left ltT hb hpb hpa, Or.inr (Or.inr ⟨rfl, rfl, rfl⟩)⟩
      | some pb =>
        obtain ⟨x, hx⟩ := deref_of_WF hw hpa
        obtain ⟨y, hy⟩ := deref_of_WF hw hpb
        exact ⟨ltT x y, eqT x y, ltT y x, op_lt_of_values false ltT hab hx hy,
          op_eq_of_values false eqT hab hx hy, op_lt_of_values false ltT hba hy hx,
          htri x y⟩

/-- Instance 0 holds 5, instance 1 holds 7, instance 2 is empty, compared with
`==` and `<` on `Nat`. -/
theorem ordering_trichotomy_witness :
    (∀ x y : Nat,
      ((fun x y => decide (x < y)) x y = true ∧ (fun x y => x == y) x y = false ∧
        (fun x y => decide (x < y)) y x = false) ∨
      ((fun x y => decide (x < y)) x y = false ∧ (fun x y => x == y) x y = true ∧
        (fun x y => decide (x < y)) y x = false) ∨
      ((fun x y => decide (x < y)) x y = false ∧ (fun x y => x == y) x y = false ∧
        (fun x y => decide (x < y)) y x = true)) ∧
    WF (⟨[some 5, some 7], [some 0, some 1, none]⟩ : World Nat) = true ∧
    (2 : Nat) < (⟨[some 5, some 7], [some 0, some 1, none]⟩ : World Nat).data_.length ∧
    (1 : Nat) < (⟨[some 5, some 7], [some 0, some 1, none]⟩ : World Nat).data_.length ∧
    ∃ l e g,
      op_lt false (fun x y => decide (x < y))
        (⟨[some 5, some 7], [some 0, some 1, none]⟩ : World Nat) 2 1 = some l ∧
      op_eq false (fun x y => x == y)
        (⟨[some 5, some 7], [some 0, some 1, none]⟩ : World Nat) 2 1 = some e ∧
      op_lt false (fun x y => decide (x < y))
        (⟨[some 5, some 7], [some 0, some 1, none]⟩ : World Nat) 1 2 = some g ∧
      ((l = true ∧ e = false ∧ g = false) ∨
       (l = false ∧ e = true ∧ g = false) ∨
       (l = false ∧ e = false ∧ g = true)) :=
  ⟨fun x y => by rcases Nat.lt_trichotomy x y with h | h | h <;> simp <;> omega,
    rfl, by decide, by decide,
    ordering_trichotomy (fun x y => x == y) (fun x y => decide (x < y))
      ⟨[some 5, some 7], [some 0, some 1, none]⟩ 2 1
      (fun x y => by rcases Nat.lt_trichotomy x y with h | h | h <;> simp <;> omega)
      rfl (by decide) (by decide)⟩


/-! ## Comparison with a bare value -/

theorem op_eq_value_of_empty {w : World T} {a : Nat} (eqT : T → T → Bool) (v : T)
    (ha : a < w.data_.length) (h : w.handle a = none) :
    op_eq_value false eqT w a v = some false := by
  simp [op_eq_value, ha, h]

theorem op_lt_value_of_empty {w : World T} {a : Nat} (ltT : T → T → Bool) (v : T)
    (ha : a < w.data_.length) (h : w.handle a = none) :
    op_lt_value false ltT w a v = some true := by
  simp [op_lt_value, ha, h]

theorem op_eq_value_of_value {w : World T} {a : Nat} {x : T} (Init : Bool)
    (eqT : T → T → Bool) (v : T) (hx : deref w a = some x) :
    op_eq_value Init eqT w a v = some (eqT x v) := by
  obtain ⟨p, hp⟩ := handle_of_deref hx
  simp [op_eq_value, handle_lt hp, hp, hx]

theorem op_lt_value_of_value {w : World T} {a : Nat} {x : T} (Init : Bool)
    (ltT : T → T → Bool) (v : T) (hx : deref w a = some x) :
    op_lt_value Init ltT w a v = some (ltT x v) := by
  obtain ⟨p, hp⟩ := handle_of_deref hx
  simp [op_lt_value, handle_lt hp, hp, hx]

/-- C15 (comparison against a bare value).  For a bare value `v`: an
empty instance of the optional instantiation gives `a == v` false, `a != v`
true and `a < v` true; a non-empty instance (either instantiation) can be
read and gives `a == v` as `T`'s `==` on `(*a, v)`, `a != v` as its negation,
and `a < v` as `T`'s `<` on `(*a, v)`. -/
theorem compare_with_value (Init : Bool) (eqT ltT : T → T → Bool) (w : World T) (a : Nat)
    (v : T) (hw : WF w = true) (ha : a < w.data_.length) :
    (empty w a = true →
      op_eq_value false eqT w a v = some false ∧ op_ne_value false eqT w a v = some true ∧
      op_lt_value false ltT w a v = some true) ∧
    (empty w a = false →
      ∃ x, deref w a = some x ∧
        op_eq_value Init eqT w a v = some (eqT x v) ∧
        op_ne_value Init eqT w a v = some (!eqT x v) ∧
        op_lt_value Init ltT w a v = some (ltT x v)) := by
  cases hp : w.handle a with
  | none =>
    refine ⟨fun _ => ⟨op_eq_value_of_empty eqT v ha hp, ?_, op_lt_value_of_empty ltT v ha hp⟩,
      fun h => ?_⟩
    · simp [op_ne_value, op_eq_value_of_empty eqT v ha hp]
    · simp [empty, hp] at h
  | some p =>
    refine ⟨fun h => ?_, fun _ => ?_⟩
    · simp [empty, hp] at h
    · obtain ⟨x, hx⟩ := deref_of_WF hw hp
      refine ⟨x, hx, op_eq_value_of_value Init eqT v hx, ?_, op_lt_value_of_value Init ltT v hx⟩
      simp [op_ne_value, op_eq_value_of_value Init eqT v hx]

/-- Instance 0 holds 5 and instance 1 is empty; the bare value is 7. -/
theorem compare_with_value_witness :
    WF (⟨[some 5], [some 0, none]⟩ : World Nat) = true ∧
    (1 : Nat) < (⟨[some 5], [some 0, none]⟩ : World Nat).data_.length ∧
    ((empty (⟨[some 5], [some 0, none]⟩ : World Nat) 1 = true →
      op_eq_value false (fun x y => x == y) (⟨[some 5], [some 0, none]⟩ : World Nat) 1 7
        = some false ∧
      op_ne_value false (fun x y => x == y) (⟨[some 5], [some 0, none]⟩ : World Nat) 1 7
        = some true ∧
      op_lt_value false (fun x y => decide (x < y))
        (⟨[some 5], [some 0, none]⟩ : World Nat) 1 7 = some true) ∧
    (empty (⟨[some 5], [some 0, none]⟩ : World Nat) 1 = false →
      ∃ x, deref (⟨[some 5], [some 0, none]⟩ : World Nat) 1 = some x ∧
        op_eq_value false (fun x y => x == y) (⟨[some 5], [some 0, none]⟩ : World Nat) 1 7
          = some ((fun x y => x == y) x 7) ∧
        op_ne_value false (fun x y => x == y) (⟨[some 5], [some 0, none]⟩ : World Nat) 1 7
          = some (!(fun x y => x == y) x 7) ∧
        op_lt_value false (fun x y => decide (x < y))
          (⟨[some 5], [some 0, none]⟩ : World Nat) 1 7
          = some ((fun x y => decide (x < y)) x 7))) :=
  ⟨rfl, by decide,
    compare_with_value false (fun x y => x == y) (fun x y => decide (x < y))
      ⟨[some 5], [some 0, none]⟩ 1 7 rfl (by decide)⟩

/-! ## Calls of the comparison operators -/

/-- A call of `operator==` returns what `op_eq` computes and hands the world
back as it found it. -/
theorem call_op_eq_eq (Init : Bool) (eqT : T → T → Bool) (w : World T) (a b : Nat) :
    call_op_eq Init eqT w a b = (op_eq Init eqT w a b).map fun r => (w, r) := by
  unfold call_op_eq op_eq shared_ptr_get shared_ptr_deref
  split
  · dsimp only
    split
    · rfl
    · split
      · rfl
      · cases hx : deref w a <;> cases hy : deref w b <;> simp [hx, hy]
  · rfl

theorem call_op_eq_value_eq (Init : Bool) (eqT : T → T → Bool) (w : World T) (a : Nat)
    (v : T) :
    call_op_eq_value Init eqT w a v = (op_eq_value Init eqT w a v).map fun r => (w, r) := by
  unfold call_op_eq_value op_eq_value shared_ptr_get shared_ptr_deref
  split
  · dsimp only
    split
    · rfl
    · cases deref w a with
      | none => rfl
      | some x => rfl
  · rfl

theorem call_op_lt_eq (Init : Bool) (ltT : T → T → Bool) (w : World T) (a b : Nat) :
    call_op_lt Init ltT w a b = (op_lt Init ltT w a b).map fun r => (w, r) := by
  unfold call_op_lt op_lt shared_ptr_get shared_ptr_deref
  split
  · dsimp only
    split
    · rfl
    · split
      · rfl
      · split
        · rfl
        · cases hx : deref w a <;> cases hy : deref w b <;> simp [hx, hy]
  · rfl

theorem call_op_lt_value_eq (Init : Bool) (ltT : T → T → Bool) (w : World T) (a : Nat)
    (v : T) :
    call_op_lt_value Init ltT w a v = (op_lt_value Init ltT w a v).map fun r => (w, r) := by
  unfold call_op_lt_value op_lt_value shared_ptr_get shared_ptr_deref
  split
  · dsimp only
    split
    · rfl
    · cases deref w a with
      | none => rfl
      | some x => rfl
  · rfl

theorem call_op_ne_eq (Init : Bool) (eqT : T → T → Bool) (w : World T) (a b : Nat) :
    call_op_ne Init eqT w a b = (op_ne Init eqT w a b).map fun r => (w, r) := by
  unfold call_op_ne op_ne
  rw [call_op_eq_eq]
  cases op_eq Init eqT w a b <;> rfl

theorem call_op_ne_value_eq (Init : Bool) (eqT : T → T → Bool) (w : World T) (a : Nat)
    (v : T) :
    call_op_ne_value Init eqT w a v = (op_ne_value Init eqT w a v).map fun r => (w, r) := by
  unfold call_op_ne_value op_ne_value
  rw [call_op_eq_value_eq]
  cases op_eq_value Init eqT w a v <;> rfl

theorem call_is_same_eq (w : World T) (a b : Nat) :
    call_is_same w a b = (w, is_same w a b) := rfl

/-- A call that hands back the world of `op`'s result leaves the world as it
was. -/
theorem world_of_call {w w1 : World T} {o : Option Bool} {r : Bool}
    (h : (o.map fun r => (w, r)) = some (w1, r)) : w1 = w ∧ o = some r := by
  cases o with
  | none => cases h
  | some r0 =>
    simp only [Option.map_some', Option.some.injEq, Prod.mk.injEq] at h
    exact ⟨h.1.symm, by rw [h.2]⟩


/-- C16 (comparisons cannot fail and do not allocate).  In the optional
instantiation, for any two instances in any states and any bare value, a call
of either overload of `operator==`, `operator!=` and `operator<` returns a
result, the one the operator computes, so no empty handle is dereferenced;
`is_same` returns as well.  The world after each of the seven calls is the
world before it: the heap is the same (nothing is allocated or released and
every stored value is as it was), and every handle and every reference count
is unchanged. -/
theorem comparisons_cannot_fail (eqT ltT : T → T → Bool) (w : World T) (a b : Nat) (v : T)
    (hw : WF w = true) (ha : a < w.data_.length) (hb : b < w.data_.length) :
    (∃ r, op_eq false eqT w a b = some r ∧ call_op_eq false eqT w a b = some (w, r)) ∧
    (∃ r, op_eq_value false eqT w a v = some r ∧
      call_op_eq_value false eqT w a v = some (w, r)) ∧
    (∃ r, op_ne false eqT w a b = some r ∧ call_op_ne false eqT w a b = some (w, r)) ∧
    (∃ r, op_ne_value false eqT w a v = some r ∧
      call_op_ne_value false eqT w a v = some (w, r)) ∧
    (∃ r, op_lt false ltT w a b = some r ∧ call_op_lt false ltT w a b = some (w, r)) ∧
    (∃ r, op_lt_value false ltT w a v = some r ∧
      call_op_lt_value false ltT w a v = some (w, r)) ∧
    call_is_same w a b = (w, is_same w a b) ∧
    (is_same w a b = true ↔ w.handle a = w.handle b) ∧
    (∀ w1 r,
      (call_op_eq false eqT w a b = some (w1, r) ∨
        call_op_eq_value false eqT w a v = some (w1, r) ∨
        call_op_ne false eqT w a b = some (w1, r) ∨
        call_op_ne_value false eqT w a v = some (w1, r) ∨
        call_op_lt false ltT w a b = some (w1, r) ∨
        call_op_lt_value false ltT w a v = some (w1, r) ∨
        call_is_same w a b = (w1, r)) →
      w1.heap = w.heap ∧ w1.data_ = w.data_ ∧
      (∀ i, w1.handle i = w.handle i ∧ use_count w1 i = use_count w i) ∧
      ∀ p, w1.cell p = w.cell p) := by
  obtain ⟨e, he⟩ := op_eq_total eqT hw ha hb
  obtain ⟨l, hl⟩ := op_lt_total ltT hw ha hb
  have hev : ∃ r, op_eq_value false eqT w a v = some r := by
    cases hp : w.handle a with
    | none => exact ⟨false, op_eq_value_of_empty eqT v ha hp⟩
    | some p =>
      obtain ⟨x, hx⟩ := deref_of_WF hw hp
      exact ⟨eqT x v, op_eq_value_of_value false eqT v hx⟩
  have hlv : ∃ r, op_lt_value false ltT w a v = some r := by
    cases hp : w.handle a with
    | none => exact ⟨true, op_lt_value_of_empty ltT v ha hp⟩
    | some p =>
      obtain ⟨x, hx⟩ := deref_of_WF hw hp
      exact ⟨ltT x v, op_lt_value_of_value false ltT v hx⟩
  obtain ⟨ev, hev1⟩ := hev
  obtain ⟨lv, hlv1⟩ := hlv
  have hne : op_ne false eqT w a b = some (!e) := by simp [op_ne, he]
  have hnev : op_ne_value false eqT w a v = some (!ev) := by simp [op_ne_value, hev1]
  refine ⟨⟨e, he, by rw [call_op_eq_eq, he]; rfl⟩,
    ⟨ev, hev1, by rw [call_op_eq_value_eq, hev1]; rfl⟩,
    ⟨!e, hne, by rw [call_op_ne_eq, hne]; rfl⟩,
    ⟨!ev, hnev, by rw [call_op_ne_value_eq, hnev]; rfl⟩,
    ⟨l, hl, by rw [call_op_lt_eq, hl]; rfl⟩,
    ⟨lv, hlv1, by rw [call_op_lt_value_eq, hlv1]; rfl⟩,
    call_is_same_eq w a b, by simp [is_same], ?_⟩
  intro w1 r h
  have hw1 : w1 = w := by
    rcases h with h | h | h | h | h | h | h
    · rw [call_op_eq_eq] at h; exact (world_of_call h).1
    · rw [call_op_eq_value_eq] at h; exact (world_of_call h).1
    · rw [call_op_ne_eq] at h; exact (world_of_call h).1
    · rw [call_op_ne_value_eq] at h; exact (world_of_call h).1
    · rw [call_op_lt_eq] at h; exact (world_of_call h).1
    · rw [call_op_lt_value_eq] at h; exact (world_of_call h).1
    · rw [call_is_same_eq] at h
      simp only [Prod.mk.injEq] at h
      exact h.1.symm
  subst hw1
  exact ⟨rfl, rfl, fun _ => ⟨rfl, rfl⟩, fun _ => rfl⟩

/-- Instance 0 holds 5, instance 1 is empty; the bare value is 7. -/
theorem comparisons_cannot_fail_witness :
    WF (⟨[some 5], [some 0, none]⟩ : World Nat) = true ∧
    (0 : Nat) < (⟨[some 5], [some 0, none]⟩ : World Nat).data_.length ∧
    (1 : Nat) < (⟨[some 5], [some 0, none]⟩ : World Nat).data_.length ∧
    ((∃ r, op_eq false (fun x y => x == y) (⟨[some 5], [some 0, none]⟩ : World Nat) 0 1
        = some r ∧
      call_op_eq false (fun x y => x == y) (⟨[some 5], [some 0, none]⟩ : World Nat) 0 1
        = some (⟨[some 5], [some 0, none]⟩, r)) ∧
    (∃ r, op_eq_value false (fun x y => x == y) (⟨[some 5], [some 0, none]⟩ : World Nat) 0 7
        = some r ∧
      call_op_eq_value false (fun x y => x == y) (⟨[some 5], [some 0, none]⟩ : World Nat) 0 7
        = some (⟨[some 5], [some 0, none]⟩, r)) ∧
    (∃ r, op_ne false (fun x y => x == y) (⟨[some 5], [some 0, none]⟩ : World Nat) 0 1
        = some r ∧
      call_op_ne false (fun x y => x == y) (⟨[some 5], [some 0, none]⟩ : World Nat) 0 1
        = some (⟨[some 5], [some 0, none]⟩, r)) ∧
    (∃ r, op_ne_value false (fun x y => x == y) (⟨[some 5], [some 0, none]⟩ : World Nat) 0 7
        = some r ∧
      call_op_ne_value false (fun x y => x == y) (⟨[some 5], [some 0, none]⟩ : World Nat) 0 7
        = some (⟨[some 5], [some 0, none]⟩, r)) ∧
    (∃ r, op_lt false (fun x y => decide (x < y))
        (⟨[some 5], [some 0, none]⟩ : World Nat) 0 1 = some r ∧
      call_op_lt false (fun x y => decide (x < y))
        (⟨[some 5], [some 0, none]⟩ : World Nat) 0 1
        = some (⟨[some 5], [some 0, none]⟩, r)) ∧
    (∃ r, op_lt_value false (fun x y => decide (x < y))
        (⟨[some 5], [some 0, none]⟩ : World Nat) 0 7 = some r ∧
      call_op_lt_value false (fun x y => decide (x < y))
        (⟨[some 5], [some 0, none]⟩ : World Nat) 0 7
        = some (⟨[some 5], [some 0, none]⟩, r)) ∧
    call_is_same (⟨[some 5], [some 0, none]⟩ : World Nat) 0 1
      = (⟨[some 5], [some 0, none]⟩, is_same (⟨[some 5], [some 0, none]⟩ : World Nat) 0 1) ∧
    (is_same (⟨[some 5], [some 0, none]⟩ : World Nat) 0 1 = true ↔
      (⟨[some 5], [some 0, none]⟩ : World Nat).handle 0
        = (⟨[some 5], [some 0, none]⟩ : World Nat).handle 1) ∧
    (∀ w1 r,
      (call_op_eq false (fun x y => x == y)
          (⟨[some 5], [some 0, none]⟩ : World Nat) 0 1 = some (w1, r) ∨
        call_op_eq_value false (fun x y => x == y)
          (⟨[some 5], [some 0, none]⟩ : World Nat) 0 7 = some (w1, r) ∨
        call_op_ne false (fun x y => x == y)
          (⟨[some 5], [some 0, none]⟩ : World Nat) 0 1 = some (w1, r) ∨
        call_op_ne_value false (fun x y => x == y)
          (⟨[some 5], [some 0, none]⟩ : World Nat) 0 7 = some (w1, r) ∨
        call_op_lt false (fun x y => decide (x < y))
          (⟨[some 5], [some 0, none]⟩ : World Nat) 0 1 = some (w1, r) ∨
        call_op_lt_value false (fun x y => decide (x < y))
          (⟨[some 5], [some 0, none]⟩ : World Nat) 0 7 = some (w1, r) ∨
        call_is_same (⟨[some 5], [some 0, none]⟩ : World Nat) 0 1 = (w1, r)) →
      w1.heap = [some 5] ∧ w1.data_ = [some 0, none] ∧
      (∀ i, w1.handle i = (⟨[some 5], [some 0, none]⟩ : World Nat).handle i ∧
        use_count w1 i = use_count (⟨[some 5], [some 0, none]⟩ : World Nat) i) ∧
      ∀ p, w1.cell p = (⟨[some 5], [some 0, none]⟩ : World Nat).cell p)) :=
  ⟨rfl, by decide, by decide,
    comparisons_cannot_fail (fun x y => x == y) (fun x y => decide (x < y))
      ⟨[some 5], [some 0, none]⟩ 0 1 7 rfl (by decide) (by decide)⟩

/-- C17 (the bare-value overloads agree with the instance overloads).  In the
optional instantiation, let `b` be an instance newly constructed from the
value `v`.  For every instance `a` that existed before, empty or not,
`a == v` returns what `a == b` returns and `a < v` returns what `a < b`
returns, and all four comparisons do return. -/
theorem value_overloads_agree (eqT ltT : T → T → Bool) (w w1 : World T) (a b : Nat) (v : T)
    (hw : WF w = true) (ha : a < w.data_.length)
    (hc : shared_optional_value w v = (w1, b)) :
    op_eq false eqT w1 a b = op_eq_value false eqT w a v ∧
    op_lt false ltT w1 a b = op_lt_value false ltT w a v ∧
    op_eq_value false eqT w1 a v = op_eq_value false eqT w a v ∧
    op_lt_value false ltT w1 a v = op_lt_value false ltT w a v ∧
    (∃ r, op_eq_value false eqT w a v = some r) ∧
    (∃ r, op_lt_value false ltT w a v = some r) := by
  rw [shared_optional_value_eq] at hc
  simp only [Prod.mk.injEq] at hc
  obtain ⟨rfl, rfl⟩ := hc
  have hha : (World.mk (w.heap ++ [some v]) (w.data_ ++ [some w.heap.length])).handle a
      = w.handle a := handle_append_old _ _ ha
  have hhb : (World.mk (w.heap ++ [some v]) (w.data_ ++ [some w.heap.length])).handle
      w.data_.length = some w.heap.length := handle_append_new _ _ _
  have hdb : deref (World.mk (w.heap ++ [some v]) (w.data_ ++ [some w.heap.length]))
      w.data_.length = some v :=
    deref_eq_some.mpr ⟨_, hhb, cell_append_new w v _⟩
  have ha1 : a < (World.mk (w.heap ++ [some v])
      (w.data_ ++ [some w.heap.length])).data_.length := by simp; omega
  have hb1 : w.data_.length < (World.mk (w.heap ++ [some v])
      (w.data_ ++ [some w.heap.length])).data_.length := by simp
  cases hp : w.handle a with
  | none =>
    have hp1 := hha.trans hp
    have hne : (World.mk (w.heap ++ [some v]) (w.data_ ++ [some w.heap.length])).handle a
        ≠ (World.mk (w.heap ++ [some v]) (w.data_ ++ [some w.heap.length])).handle
          w.data_.length := by
      rw [hp1, hhb]; simp
    rw [op_eq_of_one_empty eqT ha1 hb1 hne (Or.inl hp1),
      op_lt_of_empty_left ltT ha1 hp1 hhb,
      op_eq_value_of_empty eqT v ha hp, op_lt_value_of_empty ltT v ha hp,
      op_eq_value_of_empty eqT v ha1 hp1, op_lt_value_of_empty ltT v ha1 hp1]
    exact ⟨rfl, rfl, rfl, rfl, ⟨_, rfl⟩, ⟨_, rfl⟩⟩
  | some p =>
    have hp1 := hha.trans hp
    obtain ⟨x, hcx⟩ := (WF_iff w).mp hw a p hp
    have hx : deref w a = some x := deref_eq_some.mpr ⟨p, hp, hcx⟩
    have hx1 : deref (World.mk (w.heap ++ [some v]) (w.data_ ++ [some w.heap.length])) a
        = some x := deref_eq_some.mpr ⟨p, hp1, cell_append_old v _ hcx⟩
    have hne : (World.mk (w.heap ++ [some v]) (w.data_ ++ [some w.heap.length])).handle a
        ≠ (World.mk (w.heap ++ [some v]) (w.data_ ++ [some w.heap.length])).handle
          w.data_.length := by
      rw [hp1, hhb]
      have := cell_lt hcx
      intro h; injection h; omega
    rw [op_eq_of_values false eqT hne hx1 hdb, op_lt_of_values false ltT hne hx1 hdb,
      op_eq_value_of_value false eqT v hx, op_lt_value_of_value false ltT v hx,
      op_eq_value_of_value false eqT v hx1, op_lt_value_of_value false ltT v hx1]
    exact ⟨rfl, rfl, rfl, rfl, ⟨_, rfl⟩, ⟨_, rfl⟩⟩

/-- Instance 0 holds 5; a new instance is made from the bare value 7. -/
theorem value_overloads_agree_witness :
    WF (⟨[some 5], [some 0, none]⟩ : World Nat) = true ∧
    (0 : Nat) < (⟨[some 5], [some 0, none]⟩ : World Nat).data_.length ∧
    shared_optional_value (⟨[some 5], [some 0, none]⟩ : World Nat) 7
      = (⟨[some 5, some 7], [some 0, none, some 1]⟩, 2) ∧
    (op_eq false (fun x y => x == y)
        (⟨[some 5, some 7], [some 0, none, some 1]⟩ : World Nat) 0 2
      = op_eq_value false (fun x y => x == y) (⟨[some 5], [some 0, none]⟩ : World Nat) 0 7 ∧
    op_lt false (fun x y => decide (x < y))
        (⟨[some 5, some 7], [some 0, none, some 1]⟩ : World Nat) 0 2
      = op_lt_value false (fun x y => decide (x < y))
        (⟨[some 5], [some 0, none]⟩ : World Nat) 0 7 ∧
    op_eq_value false (fun x y => x == y)
        (⟨[some 5, some 7], [some 0, none, some 1]⟩ : World Nat) 0 7
      = op_eq_value false (fun x y => x == y) (⟨[some 5], [some 0, none]⟩ : World Nat) 0 7 ∧
    op_lt_value false (fun x y => decide (x < y))
        (⟨[some 5, some 7], [some 0, none, some 1]⟩ : World Nat) 0 7
      = op_lt_value false (fun x y => decide (x < y))
        (⟨[some 5], [some 0, none]⟩ : World Nat) 0 7 ∧
    (∃ r, op_eq_value false (fun x y => x == y)
        (⟨[some 5], [some 0, none]⟩ : World Nat) 0 7 = some r) ∧
    (∃ r, op_lt_value false (fun x y => decide (x < y))
        (⟨[some 5], [some 0, none]⟩ : World Nat) 0 7 = some r)) :=
  ⟨rfl, by decide, rfl,
    value_overloads_agree (fun x y => x == y) (fun x y => decide (x < y))
      ⟨[some 5], [some 0, none]⟩ ⟨[some 5, some 7], [some 0, none, some 1]⟩ 0 2 7
      rfl (by decide) rfl⟩


theorem deref_congr {w : World T} {a b : Nat} (h : w.handle a = w.handle b) :
    deref w a = deref w b := by
  unfold deref
  rw [h]

/-- C18 (`operator<` is transitive).  If `T`'s `<` is asymmetric and
transitive then, for instances `a`, `b`, `c` in any states and with any
sharing among them, `a < b` and `b < c` imply `a < c` (in the optional
instantiation, and in the always-present one as well).  With `a < a` false,
and an empty instance below every non-empty one, `<` is a strict partial
order. -/
theorem op_lt_transitive (Init : Bool) (ltT : T → T → Bool) (w : World T) (a b c : Nat)
    (hasym : ∀ x y, ltT x y = true → ltT y x = false)
    (htrans : ∀ x y z, ltT x y = true → ltT y z = true → ltT x z = true) :
    (op_lt Init ltT w a b = some true → op_lt Init ltT w b c = some true →
      op_lt Init ltT w a c = some true) ∧
    (a < w.data_.length → op_lt Init ltT w a a = some false) ∧
    (a < w.data_.length → b < w.data_.length → empty w a = true → empty w b = false →
      op_lt false ltT w a b = some true) := by
  refine ⟨?_, fun ha => op_lt_of_same Init ltT ha ha rfl, ?_⟩
  · intro h1 h2
    obtain ⟨ha, -, -, c1⟩ := op_lt_true_inv h1
    obtain ⟨-, hc, -, c2⟩ := op_lt_true_inv h2
    rcases c1 with ⟨hI, hpa, q, hq⟩ | ⟨x, y, hx, hy, hxy⟩
    · subst hI
      rcases c2 with ⟨-, hpb, -⟩ | ⟨y, z, -, hz, -⟩
      · rw [hpb] at hq; cases hq
      · obtain ⟨r, hr⟩ := handle_of_deref hz
        exact op_lt_of_empty_left ltT ha hpa hr
    · rcases c2 with ⟨-, hpb, -⟩ | ⟨y2, z, hy2, hz, hyz⟩
      · obtain ⟨p, hp⟩ := handle_of_deref hy
        rw [hpb] at hp; cases hp
      · rw [hy] at hy2
        cases hy2
        have hne : w.handle a ≠ w.handle c := by
          intro h
          have := deref_congr h
          rw [hx, hz] at this
          cases this
          rw [hasym x y hxy] at hyz
          cases hyz
        rw [op_lt_of_values Init ltT hne hx hz, htrans x y z hxy hyz]
  · intro ha hb hea heb
    have hpa : w.handle a = none := by
      cases h : w.handle a with
      | none => rfl
      | some p => simp [empty, h] at hea
    cases hpb : w.handle b with
    | none => simp [empty, hpb] at heb
    | some q => exact op_lt_of_empty_left ltT ha hpa hpb

/-- Instances 0, 1 and 2 hold 5, 7 and 9, compared with `<` on `Nat`. -/
theorem op_lt_transitive_witness :
    (∀ x y : Nat, (fun x y => decide (x < y)) x y = true →
      (fun x y => decide (x < y)) y x = false) ∧
    (∀ x y z : Nat, (fun x y => decide (x < y)) x y = true →
      (fun x y => decide (x < y)) y z = true → (fun x y => decide (x < y)) x z = true) ∧
    op_lt false (fun x y => decide (x < y))
      (⟨[some 5, some 7, some 9], [some 0, some 1, some 2]⟩ : World Nat) 0 1 = some true ∧
    op_lt false (fun x y => decide (x < y))
      (⟨[some 5, some 7, some 9], [some 0, some 1, some 2]⟩ : World Nat) 1 2 = some true ∧
    op_lt false (fun x y => decide (x < y))
      (⟨[some 5, some 7, some 9], [some 0, some 1, some 2]⟩ : World Nat) 0 2 = some true :=
  ⟨fun x y h => by simp at h ⊢; omega,
    fun x y z h1 h2 => by simp at h1 h2 ⊢; omega,
    rfl, rfl,
    (op_lt_transitive false (fun x y => decide (x < y))
      ⟨[some 5, some 7, some 9], [some 0, some 1, some 2]⟩ 0 1 2
      (fun x y h => by simp at h ⊢; omega)
      (fun x y z h1 h2 => by simp at h1 h2 ⊢; omega)).1 rfl rfl⟩

/-- C19 (`operator==` is an equivalence relation).  For every instance `a`,
`a == a` returns true whatever `T`'s `==` is.  If `T`'s `==` is symmetric and
transitive then, for instances in any states, `a == b` implies `b == a`, and
`a == b` with `b == c` implies `a == c` (in the optional instantiation, and
in the always-present one as well). -/
theorem op_eq_equivalence (Init : Bool) (eqT : T → T → Bool) (w : World T) (a b c : Nat)
    (hsymm : ∀ x y, eqT x y = true → eqT y x = true)
    (htrans : ∀ x y z, eqT x y = true → eqT y z = true → eqT x z = true) :
    (∀ eqT2 : T → T → Bool, a < w.data_.length → op_eq Init eqT2 w a a = some true) ∧
    (op_eq Init eqT w a b = some true → op_eq Init eqT w b a = some true) ∧
    (op_eq Init eqT w a b = some true → op_eq Init eqT w b c = some true →
      op_eq Init eqT w a c = some true) := by
  refine ⟨fun eqT2 ha => op_eq_of_same Init eqT2 ha ha rfl, ?_, ?_⟩
  · intro h
    obtain ⟨ha, hb, c1⟩ := op_eq_true_inv h
    rcases c1 with hs | ⟨hne, x, y, hx, hy, hxy⟩
    · exact op_eq_of_same Init eqT hb ha hs.symm
    · rw [op_eq_of_values Init eqT (fun h => hne h.symm) hy hx, hsymm x y hxy]
  · intro h1 h2
    obtain ⟨ha, -, c1⟩ := op_eq_true_inv h1
    obtain ⟨-, hc, c2⟩ := op_eq_true_inv h2
    rcases c1 with hs1 | ⟨hne1, x, y, hx, hy, hxy⟩
    · rcases c2 with hs2 | ⟨hne2, y, z, hy, hz, hyz⟩
      · exact op_eq_of_same Init eqT ha hc (hs1.trans hs2)
      · have hx : deref w a = some y := (deref_congr hs1).trans hy
        have hne : w.handle a ≠ w.handle c := by rw [hs1]; exact hne2
        rw [op_eq_of_values Init eqT hne hx hz, hyz]
    · rcases c2 with hs2 | ⟨hne2, y2, z, hy2, hz, hyz⟩
      · have hz : deref w c = some y := (deref_congr hs2).symm.trans hy
        have hne : w.handle a ≠ w.handle c := by rw [← hs2]; exact hne1
        rw [op_eq_of_values Init eqT hne hx hz, hxy]
      · rw [hy] at hy2
        cases hy2
        by_cases hac : w.handle a = w.handle c
        · exact op_eq_of_same Init eqT ha hc hac
        · rw [op_eq_of_values Init eqT hac hx hz, htrans x y z hxy hyz]

/-- Instances 0 and 1 share a cell holding 5; instance 2 holds 5 in a cell of
its own. -/
theorem op_eq_equivalence_witness :
    (∀ x y : Nat, (fun x y => x == y) x y = true → (fun x y => x == y) y x = true) ∧
    (∀ x y z : Nat, (fun x y => x == y) x y = true → (fun x y => x == y) y z = true →
      (fun x y => x == y) x z = true) ∧
    op_eq false (fun x y => x == y)
      (⟨[some 5, some 5], [some 0, some 0, some 1]⟩ : World Nat) 0 1 = some true ∧
    op_eq false (fun x y => x == y)
      (⟨[some 5, some 5], [some 0, some 0, some 1]⟩ : World Nat) 1 2 = some true ∧
    op_eq false (fun x y => x == y)
      (⟨[some 5, some 5], [some 0, some 0, some 1]⟩ : World Nat) 0 2 = some true :=
  ⟨fun x y h => by simp at h ⊢; omega,
    fun x y z h1 h2 => by simp at h1 h2 ⊢; omega,
    rfl, rfl,
    (op_eq_equivalence false (fun x y => x == y)
      ⟨[some 5, some 5], [some 0, some 0, some 1]⟩ 0 1 2
      (fun x y h => by simp at h ⊢; omega)
      (fun x y z h1 h2 => by simp at h1 h2 ⊢; omega)).2.2 rfl rfl⟩


/-- One of two sharers of the cell `p` takes another handle `h`; the cell
stays as it is.  The remaining sharer `A` is then the sole owner, and its
`get()` returns the cell without changing the world. -/
theorem sole_after_leave (Init : Bool) (dflt : T) (hp : List (Option T)) {w : World T}
    {A B p : Nat} {x : T} {h : Option Nat} (hAB : B ≠ A)
    (hA : w.handle A = some p) (hB : w.handle B = some p) (hc : use_count w A = 2)
    (hne : h ≠ some p) (hx : (World.mk hp (w.data_.set B h)).cell p = some x) :
    use_count (World.mk hp (w.data_.set B h)) A = 1 ∧
    (World.mk hp (w.data_.set B h)).handle A = some p ∧
    deref (World.mk hp (w.data_.set B h)) A = some x ∧
    get Init dflt (World.mk hp (w.data_.set B h)) A
      = some (World.mk hp (w.data_.set B h), p) := by
  have h1 : (World.mk hp (w.data_.set B h)).handle A = some p := by
    rw [handle_set_ne _ (Ne.symm hAB)]; exact hA
  have h2 : use_count (World.mk hp (w.data_.set B h)) A = 1 := by
    rw [use_count_of_handle h1]
    rw [use_count_of_handle hA] at hc
    show (w.data_.set B h).count (some p) = 1
    rw [count_set_old (handle_eq_some.mp hB) hne, hc]
  exact ⟨h2, h1, deref_eq_some.mpr ⟨p, h1, hx⟩,
    get_of_sole Init dflt h1 (by omega) hx⟩

/-- C20 (sole ownership is regained).  Let exactly two instances `A` and `B`
share the cell `p` (reference count 2).  After `B.get()`, and likewise
after `B.clear()`, the reference count of the cell is 1, `A` still refers to
it and reads the same value, and a following `A.get()` returns a reference to
that cell and leaves the world as it is: nothing is allocated and no second
copy is made. -/
theorem sole_ownership_regained (Init : Bool) (dflt : T) (w : World T) (A B p : Nat)
    (hw : WF w = true) (hAB : B ≠ A) (hA : w.handle A = some p)
    (hB : w.handle B = some p) (hc : use_count w A = 2) :
    (∃ w1 q, get Init dflt w B = some (w1, q) ∧
      use_count w1 A = 1 ∧ w1.handle A = some p ∧ deref w1 A = deref w A ∧
      get Init dflt w1 A = some (w1, p)) ∧
    (∃ w1, clear Init dflt w B = some w1 ∧
      use_count w1 A = 1 ∧ w1.handle A = some p ∧ deref w1 A = deref w A ∧
      get Init dflt w1 A = some (w1, p)) := by
  obtain ⟨x, hx⟩ := (WF_iff w).mp hw A p hA
  have hd : deref w A = some x := deref_eq_some.mpr ⟨p, hA, hx⟩
  have hcB : 1 < use_count w B := by
    rw [use_count_of_handle hB]
    rw [use_count_of_handle hA] at hc
    omega
  have hnew : (some w.heap.length : Option Nat) ≠ some p := by
    have := cell_lt hx
    intro h; injection h; omega
  have hBlt := handle_lt hB
  constructor
  · obtain ⟨h1, h2, h3, h4⟩ := sole_after_leave Init dflt (w.heap ++ [some x]) hAB hA hB
      hc hnew (cell_append_old x _ hx)
    exact ⟨_, _, get_of_shared Init dflt hB hcB hx, h1, h2, h3.trans hd.symm, h4⟩
  · cases Init with
    | false =>
      have hkept : assign w B none = ⟨w.heap, w.data_.set B none⟩ := by
        refine assign_of_kept none hB ?_
        rw [count_set_old (handle_eq_some.mp hB) (by simp)]
        rw [use_count_of_handle hB] at hcB
        omega
      obtain ⟨h1, h2, h3, h4⟩ := sole_after_leave false dflt w.heap (h := none)
        hAB hA hB hc (by simp) hx
      refine ⟨_, clear_of_optional dflt hBlt, ?_⟩
      rw [hkept]
      exact ⟨h1, h2, h3.trans hd.symm, h4⟩
    | true =>
      obtain ⟨h1, h2, h3, h4⟩ := sole_after_leave true dflt (w.heap ++ [some dflt])
        hAB hA hB hc hnew (cell_append_old dflt _ hx)
      exact ⟨_, clear_of_shared dflt hB hcB hw, h1, h2, h3.trans hd.symm, h4⟩

/-- Instances 0 and 1 share a cell holding 5. -/
theorem sole_ownership_regained_witness :
    WF (⟨[some 5], [some 0, some 0]⟩ : World Nat) = true ∧
    (⟨[some 5], [some 0, some 0]⟩ : World Nat).handle 0 = some 0 ∧
    (⟨[some 5], [some 0, some 0]⟩ : World Nat).handle 1 = some 0 ∧
    use_count (⟨[some 5], [some 0, some 0]⟩ : World Nat) 0 = 2 ∧
    ((∃ w1 q, get false 0 (⟨[some 5], [some 0, some 0]⟩ : World Nat) 1 = some (w1, q) ∧
      use_count w1 0 = 1 ∧ w1.handle 0 = some 0 ∧
      deref w1 0 = deref (⟨[some 5], [some 0, some 0]⟩ : World Nat) 0 ∧
      get false 0 w1 0 = some (w1, 0)) ∧
    (∃ w1, clear false 0 (⟨[some 5], [some 0, some 0]⟩ : World Nat) 1 = some w1 ∧
      use_count w1 0 = 1 ∧ w1.handle 0 = some 0 ∧
      deref w1 0 = deref (⟨[some 5], [some 0, some 0]⟩ : World Nat) 0 ∧
      get false 0 w1 0 = some (w1, 0))) :=
  ⟨rfl, rfl, rfl, rfl,
    sole_ownership_regained false 0 ⟨[some 5], [some 0, some 0]⟩ 0 1 0 rfl (by decide)
      rfl rfl rfl⟩

end fz
